import Mathlib

/-!
Verification of the Runic Protocol matching-and-lifecycle core.

This file gives a shallow embedding, in Lean, of the core services of the
Runic Protocol API (task state machine, offer scoring, auction close,
offer submission, execution lifecycle, reputation recomputation) and
proves properties of that embedding.

Conventions of the embedding:
* The Prisma-backed store is modelled as an explicit `DB` record holding
  the rows of every entity; each service method becomes a function from a
  `DB` (plus arguments) to `Except RunicError (result × DB)`.  A thrown
  domain error corresponds to an `Except.error` result; since every error
  in the modelled methods is raised before the first write, an error
  result carries no state change.
* JavaScript numbers that take part in exact branching and persistence
  (prices, budgets, scores stored in rows, reputation deltas, timestamps)
  are modelled as rationals (`ℚ`) or integers (`ℤ` for bigint columns);
  the transcendental offer-scoring formula (`Math.log`) is modelled over
  the reals (`ℝ`) with `Real.log`.
* `Math.round x` (round half towards positive infinity) is modelled as
  `⌊x + 1/2⌋`.
* The repository contains two revisions of several services
  (`TaskService`, `OfferService`, `ExecutionService`): a primary revision
  (the one exported first in each module) and a revision that routes
  every check through the `state-machine` status guard.  Both are
  embedded; definitions of the guarded revision carry the word `Guarded`
  in their name.
-/

namespace Runic

/-- Error taxonomy from `utils/errors.ts`: each subclass of `RunicError`
becomes a constructor carrying the message. -/
inductive RunicError where
  | notFound (msg : String)
  | validation (msg : String)
  | unauthorized (msg : String)
  | forbidden (msg : String)
  | conflict (msg : String)
  | auction (msg : String)
  deriving DecidableEq, Repr

/-- Whether an error is a `ConflictError`. -/
def RunicError.isConflict : RunicError → Bool
  | .conflict _ => true
  | _ => false

/-- Task statuses, from the Prisma `TaskStatus` enum. -/
inductive TaskStatus where
  | OPEN | IN_AUCTION | ASSIGNED | RUNNING | COMPLETED | FAILED | CANCELLED
  deriving DecidableEq, Repr, Fintype

/-- Printable name of a status, as used in error messages. -/
def statusName : TaskStatus → String
  | .OPEN => "OPEN"
  | .IN_AUCTION => "IN_AUCTION"
  | .ASSIGNED => "ASSIGNED"
  | .RUNNING => "RUNNING"
  | .COMPLETED => "COMPLETED"
  | .FAILED => "FAILED"
  | .CANCELLED => "CANCELLED"

/-- The `VALID_TRANSITIONS` record of `utils/state-machine.ts`. -/
def VALID_TRANSITIONS : TaskStatus → List TaskStatus
  | .OPEN => [.IN_AUCTION, .CANCELLED]
  | .IN_AUCTION => [.ASSIGNED, .OPEN, .CANCELLED]
  | .ASSIGNED => [.RUNNING, .CANCELLED]
  | .RUNNING => [.COMPLETED, .FAILED]
  | .COMPLETED => []
  | .FAILED => []
  | .CANCELLED => []

/-- The `STATUS_DESCRIPTIONS` record of `utils/state-machine.ts`. -/
def STATUS_DESCRIPTIONS : TaskStatus → String
  | .OPEN => "waiting for auction"
  | .IN_AUCTION => "accepting offers"
  | .ASSIGNED => "assigned to an agent"
  | .RUNNING => "being executed"
  | .COMPLETED => "successfully completed"
  | .FAILED => "execution failed"
  | .CANCELLED => "cancelled by user"

/-- `isValidTransition` from `utils/state-machine.ts`. -/
def isValidTransition (src dst : TaskStatus) : Bool :=
  (VALID_TRANSITIONS src).contains dst

/-- The message built by `assertValidTransition` for a rejected edge. -/
def transitionErrorMessage (src dst : TaskStatus) : String :=
  let nexts := String.intercalate ", " ((VALID_TRANSITIONS src).map statusName)
  let nexts := if nexts = "" then "none (terminal state)" else nexts
  "Invalid status transition: cannot go from " ++ statusName src ++ " (" ++
    STATUS_DESCRIPTIONS src ++ ") to " ++ statusName dst ++ " (" ++
    STATUS_DESCRIPTIONS dst ++ "). Valid next states: " ++ nexts

/-- `assertValidTransition` from `utils/state-machine.ts`: succeeds on a
valid edge, otherwise throws a `ConflictError` naming the edge. -/
def assertValidTransition (src dst : TaskStatus) : Except RunicError Unit :=
  if isValidTransition src dst then
    Except.ok ()
  else
    Except.error (.conflict (transitionErrorMessage src dst))

/-- `canAcceptOffers` from `utils/state-machine.ts`. -/
def canAcceptOffers (status : TaskStatus) : Bool :=
  status = .OPEN || status = .IN_AUCTION

/-- `canBeCancelled` from `utils/state-machine.ts`. -/
def canBeCancelled (status : TaskStatus) : Bool :=
  [TaskStatus.OPEN, .IN_AUCTION, .ASSIGNED].contains status

/-- `canStartExecution` from `utils/state-machine.ts`. -/
def canStartExecution (status : TaskStatus) : Bool :=
  status = .ASSIGNED

/-- `canComplete` from `utils/state-machine.ts`. -/
def canComplete (status : TaskStatus) : Bool :=
  status = .RUNNING

/-- `isTerminal` from `utils/state-machine.ts`. -/
def isTerminal (status : TaskStatus) : Bool :=
  [TaskStatus.COMPLETED, .FAILED, .CANCELLED].contains status

/-- The transition table exactly as the specification states it:
OPEN→IN_AUCTION|CANCELLED, IN_AUCTION→ASSIGNED|OPEN|CANCELLED,
ASSIGNED→RUNNING|CANCELLED, RUNNING→COMPLETED|FAILED. -/
def specTransitionTable : List (TaskStatus × TaskStatus) :=
  [(.OPEN, .IN_AUCTION), (.OPEN, .CANCELLED),
   (.IN_AUCTION, .ASSIGNED), (.IN_AUCTION, .OPEN), (.IN_AUCTION, .CANCELLED),
   (.ASSIGNED, .RUNNING), (.ASSIGNED, .CANCELLED),
   (.RUNNING, .COMPLETED), (.RUNNING, .FAILED)]

deriving instance DecidableEq for Except

/-- C2: for every pair of Task statuses, `assertValidTransition` succeeds
exactly on the edges of the specification table, and on every other pair
(including every pair leaving COMPLETED, FAILED or CANCELLED) it fails
with a `ConflictError` naming the disallowed edge. -/
theorem assertValidTransition_iff_table :
    ∀ src dst : TaskStatus,
      (assertValidTransition src dst = Except.ok () ↔ (src, dst) ∈ specTransitionTable) ∧
      ((src, dst) ∉ specTransitionTable ↔
        assertValidTransition src dst =
          Except.error (RunicError.conflict (transitionErrorMessage src dst))) := by
  set_option maxRecDepth 10000 in decide

/-- Offer statuses, from the Prisma `OfferStatus` enum. -/
inductive OfferStatus where
  | PENDING | ACCEPTED | REJECTED | CANCELLED
  deriving DecidableEq, Repr

/-- Execution statuses, from the Prisma `ExecutionStatus` enum. -/
inductive ExecutionStatus where
  | PENDING | RUNNING | SUCCESS | FAILURE
  deriving DecidableEq, Repr

/-- Payment statuses, from the Prisma `PaymentStatus` enum. -/
inductive PaymentStatus where
  | PENDING | COMPLETED | FAILED | REFUNDED
  deriving DecidableEq, Repr

/-- An Agent row: the fields of the Prisma `Agent` model that the core
services read or write. -/
structure Agent where
  id : String
  capabilities : List String
  isActive : Bool
  reputationScore : ℚ
  totalTasksCompleted : ℕ
  totalTasksFailed : ℕ
  avgCompletionSeconds : Option ℚ
  deriving DecidableEq, Repr

/-- A Task row: the fields of the Prisma `Task` model that the core
services read or write.  `budgetLamports` is a bigint column. -/
structure Task where
  id : String
  status : TaskStatus
  budgetLamports : ℤ
  paymentTokenSymbol : String
  requiredCapabilities : List String
  assignedAgentId : Option String
  createdByUserId : String
  deriving DecidableEq, Repr

/-- An Offer row.  Generated rows receive numeric ids from the store
counter.  The stored `score` is the numeric value persisted by
`createOffer` (a float column, modelled as a rational). -/
structure Offer where
  id : ℕ
  taskId : String
  agentId : String
  priceLamports : ℤ
  etaSeconds : ℚ
  score : ℚ
  status : OfferStatus
  deriving DecidableEq, Repr

/-- An Execution row.  Timestamps are modelled as rational instants
(milliseconds), `none` standing for NULL. -/
structure Execution where
  id : ℕ
  taskId : String
  agentId : String
  status : ExecutionStatus
  startedAt : Option ℚ
  completedAt : Option ℚ
  signedResultPayload : Option String
  resultSummary : Option String
  proofHash : Option String
  errorMessage : Option String
  deriving DecidableEq, Repr

/-- A ReputationEvent row.  The store keeps the global list newest-first
(creation prepends), so `orderBy createdAt desc` is the identity. -/
structure ReputationEvent where
  agentId : String
  taskId : String
  deltaScore : ℚ
  reason : String
  deriving DecidableEq, Repr

/-- A Payment row (the fields `createPendingPayment` writes). -/
structure Payment where
  id : ℕ
  taskId : String
  agentId : String
  amountLamports : ℤ
  tokenSymbol : String
  status : PaymentStatus
  chain : String
  deriving DecidableEq, Repr

/-- The persistence collaborator: one list of rows per entity plus a
counter for generated row ids.  `reputationEvents` is kept newest-first. -/
structure DB where
  tasks : List Task
  agents : List Agent
  offers : List Offer
  executions : List Execution
  reputationEvents : List ReputationEvent
  payments : List Payment
  nextId : ℕ
  deriving DecidableEq, Repr

/-- `prisma.task.findUnique({ where: { id } })`. -/
def findTask (db : DB) (taskId : String) : Option Task :=
  db.tasks.find? (fun t => t.id = taskId)

/-- `prisma.agent.findUnique({ where: { id } })`. -/
def findAgent (db : DB) (agentId : String) : Option Agent :=
  db.agents.find? (fun a => a.id = agentId)

/-- `prisma.task.update({ where: { id } })` applied to the row with the
given id (the update function preserves the id). -/
def updateTaskRow (db : DB) (taskId : String) (f : Task → Task) : DB :=
  { db with tasks := db.tasks.map (fun t => if t.id = taskId then f t else t) }

/-- `prisma.agent.update({ where: { id } })`. -/
def updateAgentRow (db : DB) (agentId : String) (f : Agent → Agent) : DB :=
  { db with agents := db.agents.map (fun a => if a.id = agentId then f a else a) }

/-- `prisma.offer.update({ where: { id } })`. -/
def updateOfferRow (db : DB) (offerId : ℕ) (f : Offer → Offer) : DB :=
  { db with offers := db.offers.map (fun o => if o.id = offerId then f o else o) }

/-- `prisma.execution.update({ where: { id } })`. -/
def updateExecutionRow (db : DB) (executionId : ℕ) (f : Execution → Execution) : DB :=
  { db with
    executions := db.executions.map (fun e => if e.id = executionId then f e else e) }

/-- `AgentService.getAgentById`: throws `NotFoundError` when absent. -/
def getAgentById (db : DB) (agentId : String) : Except RunicError Agent :=
  match findAgent db agentId with
  | none => Except.error (.notFound "Agent")
  | some agent => Except.ok agent

/-- `AgentService.hasRequiredCapabilities`: the agent holds every
required capability (vacuously true for an empty requirement list). -/
def hasRequiredCapabilities (agent : Agent) (requiredCapabilities : List String) : Bool :=
  if requiredCapabilities.length = 0 then true
  else requiredCapabilities.all (fun cap => agent.capabilities.contains cap)

/-- Primary `TaskService.updateTaskStatus`: writes the requested status
directly, with no transition check (the Prisma update fails only when the
row is missing). -/
def updateTaskStatus (db : DB) (taskId : String) (status : TaskStatus) :
    Except RunicError (Task × DB) :=
  match findTask db taskId with
  | none => Except.error (.notFound "Task")
  | some t =>
    Except.ok ({ t with status := status },
      updateTaskRow db taskId (fun u => { u with status := status }))

/-- Primary `TaskService.assignTask`: allows assignment whenever the Task
is OPEN or IN_AUCTION, sets `assignedAgentId` and status ASSIGNED. -/
def assignTask (db : DB) (taskId agentId : String) : Except RunicError (Task × DB) :=
  match findTask db taskId with
  | none => Except.error (.notFound "Task")
  | some task =>
    if task.status ≠ .OPEN ∧ task.status ≠ .IN_AUCTION then
      Except.error (.conflict ("Cannot assign Task: status is " ++ statusName task.status))
    else
      Except.ok ({ task with assignedAgentId := some agentId, status := .ASSIGNED },
        updateTaskRow db taskId
          (fun u => { u with assignedAgentId := some agentId, status := .ASSIGNED }))

/-- Primary `TaskService.cancelTask`: creator-only, cancellable only from
OPEN, IN_AUCTION or ASSIGNED. -/
def cancelTask (db : DB) (taskId userId : String) : Except RunicError (Task × DB) :=
  match findTask db taskId with
  | none => Except.error (.notFound "Task")
  | some task =>
    if task.createdByUserId ≠ userId then
      Except.error (.validation "Only the Task creator can cancel it")
    else if ¬ ([TaskStatus.OPEN, .IN_AUCTION, .ASSIGNED].contains task.status) then
      Except.error (.conflict ("Cannot cancel Task: status is " ++ statusName task.status))
    else
      Except.ok ({ task with status := .CANCELLED },
        updateTaskRow db taskId (fun u => { u with status := .CANCELLED }))

/-- Guarded revision of `TaskService.updateTaskStatus`: routes the change
through `assertValidTransition`. -/
def updateTaskStatusGuarded (db : DB) (taskId : String) (newStatus : TaskStatus) :
    Except RunicError (Task × DB) :=
  match findTask db taskId with
  | none => Except.error (.notFound "Task")
  | some task =>
    match assertValidTransition task.status newStatus with
    | .error e => Except.error e
    | .ok _ =>
      Except.ok ({ task with status := newStatus },
        updateTaskRow db taskId (fun u => { u with status := newStatus }))

/-- Guarded revision of `TaskService.assignTask`: validates the edge to
ASSIGNED via the status guard (`guard.transitionTo`). -/
def assignTaskGuarded (db : DB) (taskId agentId : String) : Except RunicError (Task × DB) :=
  match findTask db taskId with
  | none => Except.error (.notFound "Task")
  | some task =>
    match assertValidTransition task.status .ASSIGNED with
    | .error e => Except.error e
    | .ok _ =>
      Except.ok ({ task with assignedAgentId := some agentId, status := .ASSIGNED },
        updateTaskRow db taskId
          (fun u => { u with assignedAgentId := some agentId, status := .ASSIGNED }))

/-- The message of `TaskStatusGuard.assertCanBeCancelled`. -/
def cannotCancelMessage (s : TaskStatus) : String :=
  "Cannot cancel: Task is " ++ statusName s ++ " (" ++ STATUS_DESCRIPTIONS s ++
    "). Only OPEN, IN_AUCTION, or ASSIGNED tasks can be cancelled."

/-- Guarded revision of `TaskService.cancelTask`: validates via
`assertCanBeCancelled`. -/
def cancelTaskGuarded (db : DB) (taskId userId : String) : Except RunicError (Task × DB) :=
  match findTask db taskId with
  | none => Except.error (.notFound "Task")
  | some task =>
    if task.createdByUserId ≠ userId then
      Except.error (.validation "Only the Task creator can cancel it")
    else if ¬ canBeCancelled task.status then
      Except.error (.conflict (cannotCancelMessage task.status))
    else
      Except.ok ({ task with status := .CANCELLED },
        updateTaskRow db taskId (fun u => { u with status := .CANCELLED }))

/-- The PENDING offers of a Task, in store order (the `where` clause of
`getPendingOffersForTask`). -/
def pendingOffersForTask (db : DB) (taskId : String) : List Offer :=
  db.offers.filter (fun o => o.taskId = taskId ∧ o.status = .PENDING)

/-- `OfferService.getPendingOffersForTask`: PENDING offers of the Task
ordered by score descending (`orderBy: score desc`). -/
def getPendingOffersForTask (db : DB) (taskId : String) : List Offer :=
  (pendingOffersForTask db taskId).mergeSort (fun a b => decide (b.score ≤ a.score))

/-- `OfferService.updateOfferStatus`. -/
def updateOfferStatus (db : DB) (offerId : ℕ) (status : OfferStatus) :
    Except RunicError (Offer × DB) :=
  match db.offers.find? (fun o => o.id = offerId) with
  | none => Except.error (.notFound "Offer")
  | some o =>
    Except.ok ({ o with status := status },
      updateOfferRow db offerId (fun u => { u with status := status }))

/-- `OfferService.rejectOffersExcept`: marks REJECTED every PENDING offer
of the Task other than the winner (`updateMany`). -/
def rejectOffersExcept (db : DB) (taskId : String) (winnerOfferId : ℕ) : DB :=
  { db with
    offers := db.offers.map (fun o =>
      if o.taskId = taskId ∧ o.status = .PENDING ∧ o.id ≠ winnerOfferId then
        { o with status := .REJECTED }
      else o) }

/-- Primary `OfferService.createOffer`.  The stored score comes from the
service's own `computeOfferScore`, a transcendental formula modelled
separately over the reals (see `computeOfferScore`); since the produced
value influences no branch of `createOffer`, the embedding receives the
scoring function as an explicit parameter.  Checks, in source order:
task exists, status OPEN or IN_AUCTION (else `AuctionError`), agent
active (else `ValidationError`), capabilities (else `ValidationError`),
no PENDING offer by the same agent (else `ValidationError`).  There is no
budget check in this revision. -/
def createOffer (computeScore : ℤ → ℚ → ℚ → ℚ) (db : DB) (agentId taskId : String)
    (priceLamports : ℤ) (etaSeconds : ℚ) : Except RunicError (Offer × DB) :=
  match findTask db taskId with
  | none => Except.error (.notFound "Task")
  | some task =>
    if task.status ≠ .OPEN ∧ task.status ≠ .IN_AUCTION then
      Except.error (.auction ("Cannot submit offer: Task status is " ++ statusName task.status))
    else
      match findAgent db agentId with
      | none => Except.error (.notFound "Agent")
      | some agent =>
        if ¬ agent.isActive then
          Except.error (.validation "Agent is not active")
        else if ¬ hasRequiredCapabilities agent task.requiredCapabilities then
          Except.error (.validation ("Agent lacks required capabilities: " ++
            String.intercalate ", " task.requiredCapabilities))
        else
          match db.offers.find? (fun o =>
              o.taskId = taskId ∧ o.agentId = agentId ∧ o.status = .PENDING) with
          | some _ =>
            Except.error (.validation "Agent already has a pending offer for this Task")
          | none =>
            let score := computeScore priceLamports etaSeconds agent.reputationScore
            let offer : Offer :=
              { id := db.nextId, taskId := taskId, agentId := agentId,
                priceLamports := priceLamports, etaSeconds := etaSeconds,
                score := score, status := .PENDING }
            Except.ok (offer,
              { db with offers := db.offers ++ [offer], nextId := db.nextId + 1 })

/-- The message of `TaskStatusGuard.assertCanAcceptOffers`. -/
def cannotAcceptOffersMessage (s : TaskStatus) : String :=
  "Cannot accept offers: Task is " ++ statusName s ++ " (" ++ STATUS_DESCRIPTIONS s ++
    "). Offers are only accepted when status is OPEN or IN_AUCTION."

/-- Guarded revision of `OfferService.createOffer`: status via
`assertCanAcceptOffers` (ConflictError), duplicate PENDING offer raises
`AuctionError`, and the price is validated against the Task budget
(`ValidationError`) after the duplicate check. -/
def createOfferGuarded (computeScore : ℤ → ℚ → ℚ → ℚ) (db : DB) (agentId taskId : String)
    (priceLamports : ℤ) (etaSeconds : ℚ) : Except RunicError (Offer × DB) :=
  match findTask db taskId with
  | none => Except.error (.notFound "Task")
  | some task =>
    if ¬ canAcceptOffers task.status then
      Except.error (.conflict (cannotAcceptOffersMessage task.status))
    else
      match findAgent db agentId with
      | none => Except.error (.notFound "Agent")
      | some agent =>
        if ¬ agent.isActive then
          Except.error (.validation "Agent is not active and cannot submit offers")
        else if ¬ hasRequiredCapabilities agent task.requiredCapabilities then
          Except.error (.validation ("Agent lacks required capabilities. Needed: [" ++
            String.intercalate ", " task.requiredCapabilities ++ "]. Agent has: [" ++
            String.intercalate ", " agent.capabilities ++ "]"))
        else
          match db.offers.find? (fun o =>
              o.taskId = taskId ∧ o.agentId = agentId ∧ o.status = .PENDING) with
          | some _ =>
            Except.error (.auction
              "Agent already has a pending offer for this Task. Cancel it first to submit a new one.")
          | none =>
            if priceLamports > task.budgetLamports then
              Except.error (.validation ("Offer price (" ++ toString priceLamports ++
                ") exceeds task budget (" ++ toString task.budgetLamports ++ ")"))
            else
              let score := computeScore priceLamports etaSeconds agent.reputationScore
              let offer : Offer :=
                { id := db.nextId, taskId := taskId, agentId := agentId,
                  priceLamports := priceLamports, etaSeconds := etaSeconds,
                  score := score, status := .PENDING }
              Except.ok (offer,
                { db with offers := db.offers ++ [offer], nextId := db.nextId + 1 })

/-- The try block of `AuctionEngine.closeAuction`: fetch the PENDING
offers sorted by score; with none, reset the Task to OPEN; otherwise
accept the head offer, reject the rest, assign the Task to the winning
agent and create a PENDING Execution row. -/
def closeAuctionTry (db : DB) (taskId : String) : Except RunicError DB :=
  match getPendingOffersForTask db taskId with
  | [] =>
    match updateTaskStatus db taskId .OPEN with
    | .error e => Except.error e
    | .ok (_, db1) => Except.ok db1
  | winningOffer :: _ =>
    match updateOfferStatus db winningOffer.id .ACCEPTED with
    | .error e => Except.error e
    | .ok (_, db1) =>
      let db2 := rejectOffersExcept db1 taskId winningOffer.id
      match assignTask db2 taskId winningOffer.agentId with
      | .error e => Except.error e
      | .ok (_, db3) =>
        let exec : Execution :=
          { id := db3.nextId, taskId := taskId, agentId := winningOffer.agentId,
            status := .PENDING, startedAt := none, completedAt := none,
            signedResultPayload := none, resultSummary := none,
            proofHash := none, errorMessage := none }
        Except.ok { db3 with executions := db3.executions ++ [exec], nextId := db3.nextId + 1 }

/-- `AuctionEngine.closeAuction`: runs the try block; on any error the
catch clause resets the Task to OPEN (a failure of the reset itself is
only logged). -/
def closeAuction (db : DB) (taskId : String) : DB :=
  match closeAuctionTry db taskId with
  | .ok db1 => db1
  | .error _ =>
    match updateTaskStatus db taskId .OPEN with
    | .ok (_, db1) => db1
    | .error _ => db

/-- Base reputation score (`ReputationService.BASE_SCORE`). -/
def BASE_SCORE : ℚ := 3

/-- Lower clamp bound (`ReputationService.MIN_SCORE`). -/
def MIN_SCORE : ℚ := 0

/-- Upper clamp bound (`ReputationService.MAX_SCORE`). -/
def MAX_SCORE : ℚ := 5

/-- `Math.round(x * 100) / 100`: rounding to 2 decimal places, with
`Math.round` rounding half towards positive infinity. -/
def round2 (x : ℚ) : ℚ := (⌊x * 100 + 1 / 2⌋ : ℚ) / 100

/-- The accumulation loop of `recomputeAgentScore`, started at index `i`:
returns the pair (weightedSum, totalWeight) over the remaining events,
the event at offset `j` weighted by `0.95 ^ (i + j)`. -/
def decayLoop : ℕ → List ℚ → ℚ × ℚ
  | _, [] => (0, 0)
  | i, d :: ds =>
    let rest := decayLoop (i + 1) ds
    (d * (0.95 : ℚ) ^ i + rest.1, (0.95 : ℚ) ^ i + rest.2)

/-- `ReputationService.recomputeAgentScore` as a pure function of the
agent's reputation-event deltas, newest first (the query orders by
`createdAt desc` and takes 100).  With no events the base score is
returned directly; otherwise the decayed weighted mean is added to the
base, clamped to [0, 5] and rounded to 2 decimals. -/
def recomputeAgentScoreList (deltas : List ℚ) : ℚ :=
  let events := deltas.take 100
  if events.length = 0 then BASE_SCORE
  else
    let acc := decayLoop 0 events
    let adjustedDelta := acc.1 / max acc.2 1
    let score := BASE_SCORE + adjustedDelta
    let score := max MIN_SCORE (min MAX_SCORE score)
    round2 score

/-- The reputation-event deltas of an agent, newest first, as stored. -/
def eventsForAgent (db : DB) (agentId : String) : List ℚ :=
  (db.reputationEvents.filter (fun e => e.agentId = agentId)).map (fun e => e.deltaScore)

/-- `ReputationService.recomputeAgentScore` on the store: computes the
score from the agent's events and persists it on the Agent row. -/
def recomputeAgentScoreDB (db : DB) (agentId : String) : ℚ × DB :=
  let score := recomputeAgentScoreList (eventsForAgent db agentId)
  (score, updateAgentRow db agentId (fun a => { a with reputationScore := score }))

/-- `ReputationService.applyEvent`: appends the event (newest first in
the store) then recomputes and persists the agent's score. -/
def applyEvent (db : DB) (agentId taskId : String) (deltaScore : ℚ) (reason : String) :
    ReputationEvent × DB :=
  let event : ReputationEvent :=
    { agentId := agentId, taskId := taskId, deltaScore := deltaScore, reason := reason }
  let db1 := { db with reputationEvents := event :: db.reputationEvents }
  let r := recomputeAgentScoreDB db1 agentId
  (event, r.2)

/-- `AgentService.recomputeStats`: refolds the agent's execution history
into the completed/failed counters and the average completion time, and
recomputes `reputationScore` as the base score plus the UNWEIGHTED sum of
the most recent (at most 100) reputation-event deltas, clamped to [0, 5]
with no rounding.  This is the row update it writes. -/
def recomputeStatsUpdate (db : DB) (agentId : String) : Agent → Agent := fun a =>
  let executions := db.executions.filter (fun e => e.agentId = agentId)
  let completed := executions.filter (fun e => e.status = .SUCCESS)
  let failed := executions.filter (fun e => e.status = .FAILURE)
  let completionTimes := (completed.filter (fun e => e.completedAt ≠ none)).map
    (fun e => (e.completedAt.getD 0 - e.startedAt.getD 0) / 1000)
  let avgCompletionSeconds : Option ℚ :=
    if completed.length > 0 ∧ completionTimes.length > 0 then
      some (completionTimes.sum / (completionTimes.length : ℚ))
    else none
  let reputationEvents :=
    (db.reputationEvents.filter (fun e => e.agentId = agentId)).take 100
  let reputationScore := BASE_SCORE + (reputationEvents.map (fun e => e.deltaScore)).sum
  let reputationScore := max 0 (min 5 reputationScore)
  { a with
    totalTasksCompleted := completed.length
    totalTasksFailed := failed.length
    avgCompletionSeconds := avgCompletionSeconds
    reputationScore := reputationScore }

/-- `AgentService.recomputeStats`: requires the agent to exist, then
persists the recomputed counters, average and reputation score. -/
def recomputeStats (db : DB) (agentId : String) : Except RunicError (Agent × DB) :=
  match findAgent db agentId with
  | none => Except.error (.notFound "Agent")
  | some a =>
    Except.ok (recomputeStatsUpdate db agentId a,
      updateAgentRow db agentId (recomputeStatsUpdate db agentId))

/-- `PaymentService.createPendingPayment`. -/
def createPendingPayment (db : DB) (taskId agentId : String) (amountLamports : ℤ)
    (tokenSymbol : String) : Payment × DB :=
  let payment : Payment :=
    { id := db.nextId, taskId := taskId, agentId := agentId,
      amountLamports := amountLamports, tokenSymbol := tokenSymbol,
      status := .PENDING, chain := "solana" }
  (payment, { db with payments := db.payments ++ [payment], nextId := db.nextId + 1 })

/-- The argument record of `completeExecution`. -/
structure CompleteExecutionInput where
  success : Bool
  signedResultPayload : Option String := none
  resultSummary : Option String := none
  proofHash : Option String := none
  errorMessage : Option String := none
  deriving DecidableEq, Repr

/-- `ExecutionService.startExecution` (both revisions coincide up to the
wording of messages): requires the agent to be the assigned agent
(`ValidationError`) and the Task to be ASSIGNED (`ConflictError`); finds
the PENDING Execution for (task, agent) or creates one, marks it RUNNING
with a start timestamp, and sets the Task RUNNING. -/
def startExecution (db : DB) (taskId agentId : String) (now : ℚ) :
    Except RunicError (Execution × DB) :=
  match findTask db taskId with
  | none => Except.error (.notFound "Task")
  | some task =>
    if task.assignedAgentId ≠ some agentId then
      Except.error (.validation "Agent is not assigned to this Task")
    else if task.status ≠ .ASSIGNED then
      Except.error (.conflict ("Cannot start execution: Task status is " ++
        statusName task.status))
    else
      match db.executions.find? (fun e =>
          e.taskId = taskId ∧ e.agentId = agentId ∧ e.status = .PENDING) with
      | some execution =>
        Except.ok ({ execution with status := .RUNNING, startedAt := some now },
          updateTaskRow
            (updateExecutionRow db execution.id
              (fun e => { e with status := .RUNNING, startedAt := some now }))
            taskId (fun t => { t with status := .RUNNING }))
      | none =>
        Except.ok
          ({ id := db.nextId, taskId := taskId, agentId := agentId, status := .RUNNING,
             startedAt := some now, completedAt := none, signedResultPayload := none,
             resultSummary := none, proofHash := none, errorMessage := none },
          updateTaskRow
            (updateExecutionRow
              { db with
                executions := db.executions ++
                  [{ id := db.nextId, taskId := taskId, agentId := agentId,
                     status := .PENDING, startedAt := none, completedAt := none,
                     signedResultPayload := none, resultSummary := none,
                     proofHash := none, errorMessage := none }]
                nextId := db.nextId + 1 }
              db.nextId
              (fun e => { e with status := .RUNNING, startedAt := some now }))
            taskId (fun t => { t with status := .RUNNING }))

/-- The writes of `completeExecution` after its checks: record the
outcome on the Execution row, move the Task to COMPLETED or FAILED,
create the pending payment (success only) and apply the reputation event
(+0.1 success, −0.2 failure). -/
def completeExecutionWrites (db : DB) (task : Task) (taskId agentId : String)
    (execution : Execution) (input : CompleteExecutionInput) (now : ℚ)
    (successReason failureReason : String) : DB :=
  let executionStatus : ExecutionStatus := if input.success then .SUCCESS else .FAILURE
  let db1 := updateExecutionRow db execution.id (fun e =>
    { e with
      status := executionStatus
      completedAt := some now
      signedResultPayload := input.signedResultPayload
      resultSummary := input.resultSummary
      proofHash := input.proofHash
      errorMessage := input.errorMessage })
  if input.success then
    let dbA := updateTaskRow db1 taskId (fun t => { t with status := .COMPLETED })
    let p := createPendingPayment dbA taskId agentId task.budgetLamports
      task.paymentTokenSymbol
    let r := applyEvent p.2 agentId taskId (1 / 10) successReason
    r.2
  else
    let dbA := updateTaskRow db1 taskId (fun t => { t with status := .FAILED })
    let r := applyEvent dbA agentId taskId (-(1 / 5)) failureReason
    r.2

/-- The updated Execution row returned by `completeExecution`. -/
def completedExecutionRow (execution : Execution) (input : CompleteExecutionInput)
    (now : ℚ) : Execution :=
  { execution with
    status := if input.success then .SUCCESS else .FAILURE
    completedAt := some now
    signedResultPayload := input.signedResultPayload
    resultSummary := input.resultSummary
    proofHash := input.proofHash
    errorMessage := input.errorMessage }

/-- The shared tail of `completeExecution` after its checks: perform the
writes above, then recompute the agent's aggregate stats and return the
updated Execution row. -/
def completeExecutionTail (db : DB) (task : Task) (taskId agentId : String)
    (execution : Execution) (input : CompleteExecutionInput) (now : ℚ)
    (successReason failureReason : String) : Except RunicError (Execution × DB) :=
  match recomputeStats
      (completeExecutionWrites db task taskId agentId execution input now
        successReason failureReason) agentId with
  | .error e => Except.error e
  | .ok (_, db3) => Except.ok (completedExecutionRow execution input now, db3)

/-- Primary `ExecutionService.completeExecution`: requires the agent to
be the assigned agent (`ValidationError`) and a RUNNING Execution for
(task, agent) to exist (`NotFoundError` otherwise); it never consults the
Task status itself. -/
def completeExecution (db : DB) (taskId agentId : String)
    (input : CompleteExecutionInput) (now : ℚ) : Except RunicError (Execution × DB) :=
  match findTask db taskId with
  | none => Except.error (.notFound "Task")
  | some task =>
    if task.assignedAgentId ≠ some agentId then
      Except.error (.validation "Agent is not assigned to this Task")
    else
      match db.executions.find? (fun e =>
          e.taskId = taskId ∧ e.agentId = agentId ∧ e.status = .RUNNING) with
      | none => Except.error (.notFound "Running Execution")
      | some execution =>
        completeExecutionTail db task taskId agentId execution input now
          "Successfully completed Task execution"
          ("Task execution failed: " ++ input.errorMessage.getD "Unknown error")

/-- The message of `TaskStatusGuard.assertCanComplete`. -/
def cannotCompleteMessage (s : TaskStatus) : String :=
  "Cannot complete: Task is " ++ statusName s ++ " (" ++ STATUS_DESCRIPTIONS s ++
    "). Completion is only valid when status is RUNNING."

/-- Guarded revision of `ExecutionService.completeExecution`: identical
to the primary one except that, before looking for the RUNNING Execution,
it asserts `canComplete` on the Task status, raising a `ConflictError`
when the Task is not RUNNING; the reputation reasons also mention the
measured duration. -/
def completeExecutionGuarded (db : DB) (taskId agentId : String)
    (input : CompleteExecutionInput) (now : ℚ) : Except RunicError (Execution × DB) :=
  match findTask db taskId with
  | none => Except.error (.notFound "Task")
  | some task =>
    if task.assignedAgentId ≠ some agentId then
      Except.error (.validation "Agent is not assigned to this Task")
    else if ¬ canComplete task.status then
      Except.error (.conflict (cannotCompleteMessage task.status))
    else
      match db.executions.find? (fun e =>
          e.taskId = taskId ∧ e.agentId = agentId ∧ e.status = .RUNNING) with
      | none => Except.error (.notFound "Running Execution")
      | some execution =>
        let durationSeconds := (now - execution.startedAt.getD 0) / 1000
        completeExecutionTail db task taskId agentId execution input now
          ("Successfully completed Task in " ++ toString durationSeconds ++ "s")
          ("Task execution failed: " ++ input.errorMessage.getD "Unknown error")

/-- `Math.round(x * 1000) / 1000`: rounding to 3 decimal places over the
reals (`Math.round` rounds half towards positive infinity). -/
noncomputable def round3 (x : ℝ) : ℝ := (⌊x * 1000 + 1 / 2⌋ : ℝ) / 1000

/-- `OfferService.computeOfferScore`: the guarded revision names the
constants `alpha`, `beta`, `gamma`, `base` locally; the primary inlines
the same values.  `Math.log` is the natural logarithm, modelled by
`Real.log`. -/
noncomputable def computeOfferScore (priceLamports etaSeconds reputationScore : ℝ) : ℝ :=
  let alpha : ℝ := 1
  let beta : ℝ := 0.5
  let gamma : ℝ := 1
  let base : ℝ := 100
  let normalizedPrice := Real.log (priceLamports + 1)
  let normalizedEta := Real.log (etaSeconds + 1)
  let score := base - alpha * normalizedPrice - beta * normalizedEta + gamma * reputationScore
  round3 score

/-- The scoring-weight record of `config/index.ts` (`config.scoring`). -/
structure ScoringConfig where
  alpha : ℝ
  beta : ℝ
  gamma : ℝ
  base : ℝ

/-- The configured weights: alpha 1.0, beta 0.5, gamma 1.0, base 100.0. -/
def configScoring : ScoringConfig := { alpha := 1, beta := 0.5, gamma := 1, base := 100 }

/-- The specification's offer-score formula, stated with the weights as
configuration: `base − α·ln(price+1) − β·ln(eta+1) + γ·reputation`,
rounded to 3 decimal places. -/
noncomputable def specOfferScore (cfg : ScoringConfig) (price eta reputation : ℝ) : ℝ :=
  round3 (cfg.base - cfg.alpha * Real.log (price + 1) -
    cfg.beta * Real.log (eta + 1) + cfg.gamma * reputation)

/-- The offer score before rounding. -/
noncomputable def rawOfferScore (price eta reputation : ℝ) : ℝ :=
  100 - Real.log (price + 1) - 0.5 * Real.log (eta + 1) + reputation

/-- The specification's reputation formula:
`clamp(base + (Σ delta_i·0.95^i) / (Σ 0.95^i), 0, 5)` rounded to 2
decimals, the sums ranging over the most recent `min(n, 100)` events,
`i = 0` the newest. -/
def specDecayedScore (deltas : List ℚ) : ℚ :=
  let k := min deltas.length 100
  let weightedSum := ∑ i ∈ Finset.range k, deltas.getD i 0 * (0.95 : ℚ) ^ i
  let totalWeight := ∑ i ∈ Finset.range k, (0.95 : ℚ) ^ i
  round2 (max 0 (min 5 (BASE_SCORE + weightedSum / totalWeight)))

/-! Helper lemmas about the store embedding. -/

/-- `find?` commutes with a `map` whose function preserves the predicate. -/
theorem find?_map_pres {α : Type} (l : List α) (f : α → α) (p : α → Bool)
    (hpf : ∀ a, p (f a) = p a) : (l.map f).find? p = (l.find? p).map f := by
  rw [List.find?_map]
  have hp : p ∘ f = p := funext hpf
  rw [hp]

/-- Looking a task up after a row update: the row with the updated id is
seen through the update function, every other row unchanged. -/
theorem findTask_updateTaskRow (db : DB) (tid tid2 : String) (f : Task → Task)
    (hf : ∀ t, (f t).id = t.id) :
    findTask (updateTaskRow db tid f) tid2 =
      (findTask db tid2).map (fun t => if t.id = tid then f t else t) := by
  unfold findTask updateTaskRow
  exact find?_map_pres db.tasks _ _ (by
    intro t
    by_cases h : t.id = tid <;> simp [h, hf t])

/-- Looking an agent up after a row update. -/
theorem findAgent_updateAgentRow (db : DB) (aid aid2 : String) (f : Agent → Agent)
    (hf : ∀ a, (f a).id = a.id) :
    findAgent (updateAgentRow db aid f) aid2 =
      (findAgent db aid2).map (fun a => if a.id = aid then f a else a) := by
  unfold findAgent updateAgentRow
  exact find?_map_pres db.agents _ _ (by
    intro a
    by_cases h : a.id = aid <;> simp [h, hf a])

/-- Rounding to three decimals is monotone. -/
theorem round3_mono {x y : ℝ} (h : x ≤ y) : round3 x ≤ round3 y := by
  unfold round3
  have hf : ⌊x * 1000 + 1 / 2⌋ ≤ ⌊y * 1000 + 1 / 2⌋ := Int.floor_mono (by linarith)
  have : ((⌊x * 1000 + 1 / 2⌋ : ℤ) : ℝ) ≤ ((⌊y * 1000 + 1 / 2⌋ : ℤ) : ℝ) := by
    exact_mod_cast hf
  linarith

/-- The rounded score is the rounding of the raw score. -/
theorem computeOfferScore_eq_round3_raw (p e r : ℝ) :
    computeOfferScore p e r = round3 (rawOfferScore p e r) := by
  unfold computeOfferScore rawOfferScore
  norm_num

/-- C5: for positive price and eta, the computed offer score is exactly
the specified formula `base − α·ln(price+1) − β·ln(eta+1) + γ·reputation`
rounded to 3 decimal places, with the configured weights
(base 100.0, α 1.0, β 0.5, γ 1.0). -/
theorem computeOfferScore_eq_spec :
    ∀ price eta reputation : ℝ, 0 < price → 0 < eta →
      computeOfferScore price eta reputation =
        specOfferScore configScoring price eta reputation := by
  intro p e r _ _
  unfold computeOfferScore specOfferScore configScoring
  norm_num

/-- Witness for C5 at price 1, eta 2, reputation 3. -/
theorem computeOfferScore_eq_spec_witness :
    (0 : ℝ) < 1 ∧ (0 : ℝ) < 2 ∧
      computeOfferScore 1 2 3 = specOfferScore configScoring 1 2 3 :=
  ⟨by norm_num, by norm_num, computeOfferScore_eq_spec 1 2 3 (by norm_num) (by norm_num)⟩

/-- C6 counterexample: with the result rounded to 3 decimal places, the
score does NOT strictly increase in reputation: at price 1 and eta 1,
raising the reputation from 3 to 3 + 1/10000 leaves the score unchanged
(both round to 101.96). -/
theorem computeOfferScore_strict_increase_fails :
    (3 : ℝ) < 3 + 1 / 10000 ∧
      computeOfferScore 1 1 3 = computeOfferScore 1 1 (3 + 1 / 10000) := by
  have l2gt := Real.log_two_gt_d9
  have l2lt := Real.log_two_lt_d9
  have key : ∀ r : ℝ, 3 ≤ r → r ≤ 3 + 1 / 10000 →
      ⌊(100 - 1 * Real.log (1 + 1) - 0.5 * Real.log (1 + 1) + 1 * r) * 1000 + 1 / 2⌋ =
        (101960 : ℤ) := by
    intro r h1 h2
    have h12 : (1 : ℝ) + 1 = 2 := by norm_num
    rw [h12, Int.floor_eq_iff]
    constructor
    · push_cast
      nlinarith
    · push_cast
      nlinarith
  constructor
  · norm_num
  · unfold computeOfferScore round3
    simp only []
    rw [key 3 (by norm_num) (by norm_num), key (3 + 1 / 10000) (by norm_num) (by norm_num)]

/-- C6 amended: the offer score is deterministic (a pure function of its
arguments); with the 3-decimal rounding it is weakly decreasing in price
and eta and weakly increasing in reputation (strictness fails, see the
counterexample); the UNROUNDED score is strictly decreasing in price and
eta and strictly increasing in reputation. -/
theorem computeOfferScore_monotonicity :
    (∀ p e r p2 e2 r2 : ℝ, p = p2 → e = e2 → r = r2 →
      computeOfferScore p e r = computeOfferScore p2 e2 r2) ∧
    (∀ p p2 e r : ℝ, 0 < p → p ≤ p2 →
      computeOfferScore p2 e r ≤ computeOfferScore p e r) ∧
    (∀ p e e2 r : ℝ, 0 < e → e ≤ e2 →
      computeOfferScore p e2 r ≤ computeOfferScore p e r) ∧
    (∀ p e r r2 : ℝ, r ≤ r2 →
      computeOfferScore p e r ≤ computeOfferScore p e r2) ∧
    (∀ p p2 e r : ℝ, 0 < p → p < p2 → rawOfferScore p2 e r < rawOfferScore p e r) ∧
    (∀ p e e2 r : ℝ, 0 < e → e < e2 → rawOfferScore p e2 r < rawOfferScore p e r) ∧
    (∀ p e r r2 : ℝ, r < r2 → rawOfferScore p e r < rawOfferScore p e r2) := by
  refine ⟨?_, ?_, ?_, ?_, ?_, ?_, ?_⟩
  · intro p e r p2 e2 r2 hp he hr
    rw [hp, he, hr]
  · intro p p2 e r hp hle
    rw [computeOfferScore_eq_round3_raw, computeOfferScore_eq_round3_raw]
    refine round3_mono ?_
    unfold rawOfferScore
    have := @Real.log_le_log (p + 1) (p2 + 1) (by linarith) (by linarith)
    linarith
  · intro p e e2 r he hle
    rw [computeOfferScore_eq_round3_raw, computeOfferScore_eq_round3_raw]
    refine round3_mono ?_
    unfold rawOfferScore
    have := @Real.log_le_log (e + 1) (e2 + 1) (by linarith) (by linarith)
    linarith
  · intro p e r r2 hle
    rw [computeOfferScore_eq_round3_raw, computeOfferScore_eq_round3_raw]
    refine round3_mono ?_
    unfold rawOfferScore
    linarith
  · intro p p2 e r hp hlt
    unfold rawOfferScore
    have := @Real.log_lt_log (p + 1) (p2 + 1) (by linarith) (by linarith)
    linarith
  · intro p e e2 r he hlt
    unfold rawOfferScore
    have := @Real.log_lt_log (e + 1) (e2 + 1) (by linarith) (by linarith)
    linarith
  · intro p e r r2 hlt
    unfold rawOfferScore
    linarith

/-- Witness for the amended C6 at concrete inputs. -/
theorem computeOfferScore_monotonicity_witness :
    (0 : ℝ) < 1 ∧ (1 : ℝ) ≤ 2 ∧ (1 : ℝ) < 2 ∧
      computeOfferScore 2 1 3 ≤ computeOfferScore 1 1 3 ∧
      computeOfferScore 1 2 3 ≤ computeOfferScore 1 1 3 ∧
      computeOfferScore 1 1 3 ≤ computeOfferScore 1 1 4 ∧
      rawOfferScore 2 1 3 < rawOfferScore 1 1 3 ∧
      rawOfferScore 1 2 3 < rawOfferScore 1 1 3 ∧
      rawOfferScore 1 1 3 < rawOfferScore 1 1 4 :=
  ⟨by norm_num, by norm_num, by norm_num,
    computeOfferScore_monotonicity.2.1 1 2 1 3 (by norm_num) (by norm_num),
    computeOfferScore_monotonicity.2.2.1 1 1 2 3 (by norm_num) (by norm_num),
    computeOfferScore_monotonicity.2.2.2.1 1 1 3 4 (by norm_num),
    computeOfferScore_monotonicity.2.2.2.2.1 1 2 1 3 (by norm_num) (by norm_num),
    computeOfferScore_monotonicity.2.2.2.2.2.1 1 1 2 3 (by norm_num) (by norm_num),
    computeOfferScore_monotonicity.2.2.2.2.2.2 1 1 3 4 (by norm_num)⟩

/-- The accumulation loop computes the decayed sums over the list. -/
theorem decayLoop_eq (l : List ℚ) :
    ∀ i : ℕ, decayLoop i l =
      (∑ j ∈ Finset.range l.length, l.getD j 0 * (0.95 : ℚ) ^ (i + j),
       ∑ j ∈ Finset.range l.length, (0.95 : ℚ) ^ (i + j)) := by
  induction l with
  | nil =>
    intro i
    simp [decayLoop]
  | cons d ds ih =>
    intro i
    have hshift : ∀ j : ℕ, i + 1 + j = i + (j + 1) := by omega
    simp only [decayLoop, ih (i + 1), List.length_cons]
    refine Prod.ext ?_ ?_
    · simp only [Finset.sum_range_succ', List.getD_cons_succ, List.getD_cons_zero,
        Nat.add_zero, hshift]
      ring
    · simp only [Finset.sum_range_succ', Nat.add_zero, hshift]
      ring

/-- Rounding to two decimals keeps a value of [0, 5] inside [0, 5]. -/
theorem round2_bounds {x : ℚ} (h0 : 0 ≤ x) (h5 : x ≤ 5) :
    0 ≤ round2 x ∧ round2 x ≤ 5 := by
  unfold round2
  have hlow : (0 : ℤ) ≤ ⌊x * 100 + 1 / 2⌋ := by
    rw [Int.le_floor]
    push_cast
    linarith
  have hhigh : ⌊x * 100 + 1 / 2⌋ ≤ (500 : ℤ) := by
    rw [Int.floor_le_iff]
    push_cast
    linarith
  constructor
  · have : ((0 : ℤ) : ℚ) ≤ (⌊x * 100 + 1 / 2⌋ : ℚ) := by exact_mod_cast hlow
    positivity
  · have : (⌊x * 100 + 1 / 2⌋ : ℚ) ≤ ((500 : ℤ) : ℚ) := by exact_mod_cast hhigh
    push_cast at this
    linarith

/-- C4: reputation recomputation yields exactly the base score 3.0 with
zero events; with at least one event it equals the specification formula
`clamp(3 + (Σ delta_i·0.95^i)/(Σ 0.95^i), 0, 5)` rounded to 2 decimals
over the most recent `min(n, 100)` events newest-first (the implicit
content: the implementation divides by `max(totalWeight, 1)`, which
coincides with `totalWeight` since the newest weight is 1); the computed
score always lies within [0, 5]; and the score persisted on the Agent row
by `recomputeAgentScore` is exactly that value. -/
theorem recomputeAgentScore_spec :
    recomputeAgentScoreList [] = BASE_SCORE ∧
    (∀ deltas : List ℚ, deltas ≠ [] →
      recomputeAgentScoreList deltas = specDecayedScore deltas) ∧
    (∀ deltas : List ℚ, MIN_SCORE ≤ recomputeAgentScoreList deltas ∧
      recomputeAgentScoreList deltas ≤ MAX_SCORE) ∧
    (∀ (db : DB) (agentId : String) (agent : Agent),
      findAgent (recomputeAgentScoreDB db agentId).2 agentId = some agent →
      agent.reputationScore = recomputeAgentScoreList (eventsForAgent db agentId)) := by
  have hbounds : ∀ deltas : List ℚ, MIN_SCORE ≤ recomputeAgentScoreList deltas ∧
      recomputeAgentScoreList deltas ≤ MAX_SCORE := by
    intro deltas
    unfold recomputeAgentScoreList BASE_SCORE MIN_SCORE MAX_SCORE
    by_cases h : (deltas.take 100).length = 0
    · simp only [h, if_pos rfl]
      norm_num
    · simp only [h, if_neg h]
      exact round2_bounds (le_max_left _ _) (max_le (by norm_num) (min_le_left _ _))
  refine ⟨by simp [recomputeAgentScoreList, List.take_nil], ?_, hbounds, ?_⟩
  · intro deltas hne
    unfold recomputeAgentScoreList specDecayedScore MIN_SCORE MAX_SCORE
    have hlen : (deltas.take 100).length = min deltas.length 100 := by
      rw [List.length_take]
      omega
    have hpos : 0 < min deltas.length 100 := by
      have : deltas.length ≠ 0 := fun h => hne (List.eq_nil_of_length_eq_zero h)
      omega
    have hlen0 : ¬ (deltas.take 100).length = 0 := by omega
    simp only [if_neg hlen0]
    rw [decayLoop_eq]
    simp only [zero_add, hlen]
    have hsum1 : ∑ j ∈ Finset.range (min deltas.length 100),
        (deltas.take 100).getD j 0 * (0.95 : ℚ) ^ j =
        ∑ j ∈ Finset.range (min deltas.length 100), deltas.getD j 0 * (0.95 : ℚ) ^ j := by
      refine Finset.sum_congr rfl ?_
      intro j hj
      have hj100 : j < 100 := by
        have := Finset.mem_range.mp hj
        omega
      rw [List.getD_eq_getElem?_getD, List.getD_eq_getElem?_getD, List.getElem?_take,
        if_pos hj100]
    have hw1 : (1 : ℚ) ≤ ∑ j ∈ Finset.range (min deltas.length 100), (0.95 : ℚ) ^ j := by
      have h1 : ((0.95 : ℚ) ^ (0 : ℕ)) ≤
          ∑ j ∈ Finset.range (min deltas.length 100), (0.95 : ℚ) ^ j := by
        refine Finset.single_le_sum ?_ (Finset.mem_range.mpr hpos)
        intro j _
        positivity
      simpa using h1
    rw [hsum1, max_eq_left hw1]
  · intro db agentId agent hfind
    simp only [recomputeAgentScoreDB] at hfind
    rw [findAgent_updateAgentRow db agentId agentId
      (fun a => { a with reputationScore := recomputeAgentScoreList (eventsForAgent db agentId) })
      (fun a => rfl)] at hfind
    match hfa : findAgent db agentId with
    | none => rw [hfa] at hfind; simp at hfind
    | some a0 =>
      rw [hfa] at hfind
      simp only [Option.map_some'] at hfind
      have ha0 : a0.id = agentId := by
        unfold findAgent at hfa
        have h2 := List.find?_some hfa
        simpa using h2
      rw [if_pos ha0] at hfind
      cases hfind
      rfl

/-- Witness for C4: applying a +0.1 then a −0.2 event (newest first the
deltas are [−0.2, 0.1]) yields score 2.95, matching the hand-computed
decayed formula; the bounds hold there as well. -/
theorem recomputeAgentScore_spec_witness :
    ([-(1 / 5), 1 / 10] : List ℚ) ≠ [] ∧
      recomputeAgentScoreList [-(1 / 5), 1 / 10] = specDecayedScore [-(1 / 5), 1 / 10] ∧
      recomputeAgentScoreList [-(1 / 5), 1 / 10] = 59 / 20 ∧
      MIN_SCORE ≤ recomputeAgentScoreList [-(1 / 5), 1 / 10] ∧
      recomputeAgentScoreList [-(1 / 5), 1 / 10] ≤ MAX_SCORE :=
  ⟨by simp,
    recomputeAgentScore_spec.2.1 [-(1 / 5), 1 / 10] (by simp),
    by
      norm_num [recomputeAgentScoreList, decayLoop, round2, BASE_SCORE, MIN_SCORE,
        MAX_SCORE, max_def, min_def, Int.floor_eq_iff],
    (recomputeAgentScore_spec.2.2.1 [-(1 / 5), 1 / 10]).1,
    (recomputeAgentScore_spec.2.2.1 [-(1 / 5), 1 / 10]).2⟩

/-! Concrete fixtures used by witnesses and counterexamples. -/

/-- An active agent holding the capability "cap". -/
def agentActive : Agent :=
  { id := "agent-1", capabilities := ["cap"], isActive := true, reputationScore := 3,
    totalTasksCompleted := 0, totalTasksFailed := 0, avgCompletionSeconds := none }

/-- An inactive agent. -/
def agentInactive : Agent :=
  { agentActive with id := "agent-2", isActive := false }

/-- An active agent without the required capability. -/
def agentNoCap : Agent :=
  { agentActive with id := "agent-3", capabilities := [] }

/-- A task in auction with budget 1000 requiring capability "cap". -/
def taskAuction : Task :=
  { id := "task-1", status := .IN_AUCTION, budgetLamports := 1000,
    paymentTokenSymbol := "SOL", requiredCapabilities := ["cap"],
    assignedAgentId := none, createdByUserId := "user-1" }

/-- A PENDING offer of agent-1 on task-1. -/
def offerPending : Offer :=
  { id := 0, taskId := "task-1", agentId := "agent-1", priceLamports := 100,
    etaSeconds := 60, score := 10, status := .PENDING }

/-- The same offer once REJECTED. -/
def offerRejected : Offer :=
  { offerPending with status := .REJECTED }

/-- A degenerate scoring function used where the produced score value is
irrelevant to the property at hand. -/
def zeroScoreFn : ℤ → ℚ → ℚ → ℚ := fun _ _ _ => 0

/-- Store in which agent-1 already holds a PENDING offer on task-1. -/
def dbDuplicate : DB :=
  { tasks := [taskAuction], agents := [agentActive], offers := [offerPending],
    executions := [], reputationEvents := [], payments := [], nextId := 1 }

/-- Store in which the earlier offer of agent-1 is REJECTED. -/
def dbRejected : DB :=
  { dbDuplicate with offers := [offerRejected] }

/-- Store with the three agents and no offers. -/
def dbCreate : DB :=
  { tasks := [taskAuction], agents := [agentActive, agentInactive, agentNoCap],
    offers := [], executions := [], reputationEvents := [], payments := [], nextId := 0 }

/-- C7 counterexample: a duplicate PENDING offer makes `createOffer` fail
with a ValidationError (the guarded revision uses AuctionError), which is
not a ConflictError as the claim states. -/
theorem createOffer_duplicate_not_conflict :
    createOffer zeroScoreFn dbDuplicate "agent-1" "task-1" 100 60 =
      Except.error (.validation "Agent already has a pending offer for this Task") ∧
    createOfferGuarded zeroScoreFn dbDuplicate "agent-1" "task-1" 100 60 =
      Except.error (.auction
        "Agent already has a pending offer for this Task. Cancel it first to submit a new one.") ∧
    (RunicError.validation "Agent already has a pending offer for this Task").isConflict
      = false ∧
    (RunicError.auction
        "Agent already has a pending offer for this Task. Cancel it first to submit a new one.").isConflict
      = false := by
  refine ⟨by decide, by decide, rfl, rfl⟩

/-- C7 amended: whenever the submitting Agent already holds a PENDING
offer on the Task (all earlier checks passing), `createOffer` fails —
with ValidationError in the primary revision and AuctionError in the
guarded one — and once no PENDING offer of that agent exists (for
example after it was REJECTED) a new submission succeeds. -/
theorem createOffer_duplicate_pending :
    ∀ (cs : ℤ → ℚ → ℚ → ℚ) (db : DB) (agentId taskId : String) (price : ℤ) (eta : ℚ)
      (task : Task) (agent : Agent),
      findTask db taskId = some task →
      (task.status = .OPEN ∨ task.status = .IN_AUCTION) →
      findAgent db agentId = some agent →
      agent.isActive = true →
      hasRequiredCapabilities agent task.requiredCapabilities = true →
      ((∃ o ∈ db.offers, o.taskId = taskId ∧ o.agentId = agentId ∧ o.status = .PENDING) →
        createOffer cs db agentId taskId price eta =
          Except.error (.validation "Agent already has a pending offer for this Task") ∧
        createOfferGuarded cs db agentId taskId price eta =
          Except.error (.auction
            "Agent already has a pending offer for this Task. Cancel it first to submit a new one.")) ∧
      ((∀ o ∈ db.offers, ¬ (o.taskId = taskId ∧ o.agentId = agentId ∧ o.status = .PENDING)) →
        (createOffer cs db agentId taskId price eta).isOk = true) := by
  intro cs db agentId taskId price eta task agent htask hstatus hagent hactive hcaps
  constructor
  · intro hdup
    have hsome : (db.offers.find? (fun o => decide (o.taskId = taskId) &&
        (decide (o.agentId = agentId) && decide (o.status = .PENDING)))).isSome = true := by
      rw [List.find?_isSome]
      obtain ⟨o, ho, hp⟩ := hdup
      exact ⟨o, ho, by simp [hp.1, hp.2.1, hp.2.2]⟩
    obtain ⟨o0, ho0⟩ := Option.isSome_iff_exists.mp hsome
    rcases hstatus with h | h <;>
      constructor <;>
        simp [createOffer, createOfferGuarded, htask, hagent, h, hactive, hcaps,
          ho0, canAcceptOffers]
  · intro hnone
    have hfo : db.offers.find? (fun o => decide (o.taskId = taskId) &&
        (decide (o.agentId = agentId) && decide (o.status = .PENDING))) = none := by
      rw [List.find?_eq_none]
      intro x hx
      simpa using hnone x hx
    rcases hstatus with h | h <;>
      simp [createOffer, htask, hagent, h, hactive, hcaps, hfo, Except.isOk, Except.toBool]

/-- Witness for the amended C7: concrete duplicate rejection and the
successful resubmission after the first offer was REJECTED. -/
theorem createOffer_duplicate_pending_witness :
    createOffer zeroScoreFn dbDuplicate "agent-1" "task-1" 100 60 =
      Except.error (.validation "Agent already has a pending offer for this Task") ∧
    (createOffer zeroScoreFn dbRejected "agent-1" "task-1" 100 60).isOk = true :=
  ⟨((createOffer_duplicate_pending zeroScoreFn dbDuplicate "agent-1" "task-1" 100 60
      taskAuction agentActive (by decide) (Or.inr (by decide)) (by decide) (by decide)
      (by decide)).1 (by decide)).1,
    (createOffer_duplicate_pending zeroScoreFn dbRejected "agent-1" "task-1" 100 60
      taskAuction agentActive (by decide) (Or.inr (by decide)) (by decide) (by decide)
      (by decide)).2 (by decide)⟩

/-- C8 counterexample: the primary `createOffer` accepts an offer whose
price 2000 exceeds the Task budget 1000 — there is no budget check. -/
theorem createOffer_no_budget_check :
    findTask dbCreate "task-1" = some taskAuction ∧
    taskAuction.budgetLamports = 1000 ∧
    (2000 : ℤ) > taskAuction.budgetLamports ∧
    (createOffer zeroScoreFn dbCreate "agent-1" "task-1" 2000 60).isOk = true := by
  refine ⟨by decide, by decide, by decide, by decide⟩

/-- C8 amended: `createOffer` fails with ValidationError when the agent
is inactive or lacks a required capability; the primary revision performs
NO budget check (an over-budget price is accepted); only the guarded
revision rejects a price above the budget with ValidationError, and
accepts otherwise. -/
theorem createOffer_validation_checks :
    ∀ (cs : ℤ → ℚ → ℚ → ℚ) (db : DB) (agentId taskId : String) (price : ℤ) (eta : ℚ)
      (task : Task) (agent : Agent),
      findTask db taskId = some task →
      (task.status = .OPEN ∨ task.status = .IN_AUCTION) →
      findAgent db agentId = some agent →
      (agent.isActive = false →
        createOffer cs db agentId taskId price eta =
          Except.error (.validation "Agent is not active")) ∧
      (agent.isActive = true →
        hasRequiredCapabilities agent task.requiredCapabilities = false →
        createOffer cs db agentId taskId price eta =
          Except.error (.validation ("Agent lacks required capabilities: " ++
            String.intercalate ", " task.requiredCapabilities))) ∧
      (agent.isActive = true →
        hasRequiredCapabilities agent task.requiredCapabilities = true →
        (∀ o ∈ db.offers, ¬ (o.taskId = taskId ∧ o.agentId = agentId ∧ o.status = .PENDING)) →
        (createOffer cs db agentId taskId price eta).isOk = true) ∧
      (agent.isActive = true →
        hasRequiredCapabilities agent task.requiredCapabilities = true →
        (∀ o ∈ db.offers, ¬ (o.taskId = taskId ∧ o.agentId = agentId ∧ o.status = .PENDING)) →
        price > task.budgetLamports →
        createOfferGuarded cs db agentId taskId price eta =
          Except.error (.validation ("Offer price (" ++ toString price ++
            ") exceeds task budget (" ++ toString task.budgetLamports ++ ")"))) ∧
      (agent.isActive = true →
        hasRequiredCapabilities agent task.requiredCapabilities = true →
        (∀ o ∈ db.offers, ¬ (o.taskId = taskId ∧ o.agentId = agentId ∧ o.status = .PENDING)) →
        price ≤ task.budgetLamports →
        (createOfferGuarded cs db agentId taskId price eta).isOk = true) := by
  intro cs db agentId taskId price eta task agent htask hstatus hagent
  have hfo : ∀ _ : (∀ o ∈ db.offers,
      ¬ (o.taskId = taskId ∧ o.agentId = agentId ∧ o.status = .PENDING)),
      db.offers.find? (fun o => decide (o.taskId = taskId) &&
        (decide (o.agentId = agentId) && decide (o.status = .PENDING))) = none := by
    intro hnone
    rw [List.find?_eq_none]
    intro x hx
    simpa using hnone x hx
  refine ⟨?_, ?_, ?_, ?_, ?_⟩
  · intro hinactive
    rcases hstatus with h | h <;>
      simp [createOffer, htask, hagent, h, hinactive]
  · intro hactive hnocaps
    rcases hstatus with h | h <;>
      simp [createOffer, htask, hagent, h, hactive, hnocaps]
  · intro hactive hcaps hnone
    rcases hstatus with h | h <;>
      simp [createOffer, htask, hagent, h, hactive, hcaps, hfo hnone, Except.isOk,
        Except.toBool]
  · intro hactive hcaps hnone hover
    rcases hstatus with h | h <;>
      simp [createOfferGuarded, htask, hagent, h, hactive, hcaps, hfo hnone,
        canAcceptOffers, hover]
  · intro hactive hcaps hnone hunder
    rcases hstatus with h | h <;>
      simp [createOfferGuarded, htask, hagent, h, hactive, hcaps, hfo hnone,
        canAcceptOffers, not_lt.mpr hunder, Except.isOk, Except.toBool]

/-- Witness for the amended C8 at concrete stores. -/
theorem createOffer_validation_checks_witness :
    createOffer zeroScoreFn dbCreate "agent-2" "task-1" 100 60 =
      Except.error (.validation "Agent is not active") ∧
    createOffer zeroScoreFn dbCreate "agent-3" "task-1" 100 60 =
      Except.error (.validation ("Agent lacks required capabilities: " ++
        String.intercalate ", " taskAuction.requiredCapabilities)) ∧
    (createOffer zeroScoreFn dbCreate "agent-1" "task-1" 2000 60).isOk = true ∧
    createOfferGuarded zeroScoreFn dbCreate "agent-1" "task-1" 2000 60 =
      Except.error (.validation ("Offer price (" ++ toString (2000 : ℤ) ++
        ") exceeds task budget (" ++ toString taskAuction.budgetLamports ++ ")")) ∧
    (createOfferGuarded zeroScoreFn dbCreate "agent-1" "task-1" 500 60).isOk = true :=
  ⟨(createOffer_validation_checks zeroScoreFn dbCreate "agent-2" "task-1" 100 60
      taskAuction agentInactive (by decide) (Or.inr (by decide)) (by decide)).1 (by decide),
    (createOffer_validation_checks zeroScoreFn dbCreate "agent-3" "task-1" 100 60
      taskAuction agentNoCap (by decide) (Or.inr (by decide)) (by decide)).2.1
      (by decide) (by decide),
    (createOffer_validation_checks zeroScoreFn dbCreate "agent-1" "task-1" 2000 60
      taskAuction agentActive (by decide) (Or.inr (by decide)) (by decide)).2.2.1
      (by decide) (by decide) (by decide),
    (createOffer_validation_checks zeroScoreFn dbCreate "agent-1" "task-1" 2000 60
      taskAuction agentActive (by decide) (Or.inr (by decide)) (by decide)).2.2.2.1
      (by decide) (by decide) (by decide) (by decide),
    (createOffer_validation_checks zeroScoreFn dbCreate "agent-1" "task-1" 500 60
      taskAuction agentActive (by decide) (Or.inr (by decide)) (by decide)).2.2.2.2
      (by decide) (by decide) (by decide) (by decide)⟩

/-- An OPEN task. -/
def taskOpen : Task :=
  { taskAuction with id := "task-2", status := .OPEN }

/-- A COMPLETED (terminal) task. -/
def taskCompleted : Task :=
  { taskAuction with id := "task-3", status := .COMPLETED }

/-- Store holding an OPEN and a COMPLETED task. -/
def dbStatus : DB :=
  { tasks := [taskOpen, taskCompleted], agents := [agentActive], offers := [],
    executions := [], reputationEvents := [], payments := [], nextId := 0 }

/-- C3 counterexample: the primary `assignTask` moves an OPEN task
directly to ASSIGNED, and the primary `updateTaskStatus` happily moves a
COMPLETED (terminal) task to RUNNING — neither edge is in the StatusGuard
table. -/
theorem statusGuard_bypass :
    isValidTransition .OPEN .ASSIGNED = false ∧
    (assignTask dbStatus "task-2" "agent-1").isOk = true ∧
    (assignTask dbStatus "task-2" "agent-1").toOption.map (fun p => p.1.status) =
      some .ASSIGNED ∧
    isValidTransition .COMPLETED .RUNNING = false ∧
    (updateTaskStatus dbStatus "task-3" .RUNNING).isOk = true ∧
    (updateTaskStatus dbStatus "task-3" .RUNNING).toOption.map (fun p => p.1.status) =
      some .RUNNING := by
  refine ⟨by decide, by decide, by decide, by decide, by decide, by decide⟩

/-- The status-mutating core operations that route their checks through
the state machine (the guarded service revisions, cancellation, and the
execution lifecycle). -/
inductive CoreOp where
  | opUpdateGuarded (taskId : String) (status : TaskStatus)
  | opAssignGuarded (taskId agentId : String)
  | opCancel (taskId userId : String)
  | opCancelGuarded (taskId userId : String)
  | opStart (taskId agentId : String) (now : ℚ)
  | opComplete (taskId agentId : String) (input : CompleteExecutionInput) (now : ℚ)
  | opCompleteGuarded (taskId agentId : String) (input : CompleteExecutionInput) (now : ℚ)

/-- Run one core operation against the store, keeping the new store. -/
def runOp (db : DB) : CoreOp → Except RunicError DB
  | .opUpdateGuarded tid s => (updateTaskStatusGuarded db tid s).map Prod.snd
  | .opAssignGuarded tid aid => (assignTaskGuarded db tid aid).map Prod.snd
  | .opCancel tid uid => (cancelTask db tid uid).map Prod.snd
  | .opCancelGuarded tid uid => (cancelTaskGuarded db tid uid).map Prod.snd
  | .opStart tid aid now => (startExecution db tid aid now).map Prod.snd
  | .opComplete tid aid input now => (completeExecution db tid aid input now).map Prod.snd
  | .opCompleteGuarded tid aid input now =>
      (completeExecutionGuarded db tid aid input now).map Prod.snd

/-- A task found by id carries that id. -/
theorem findTask_some_id {db : DB} {tid : String} {t : Task}
    (h : findTask db tid = some t) : t.id = tid := by
  unfold findTask at h
  have h2 := List.find?_some h
  simpa using h2

/-- A task found by id is a member of the store. -/
theorem findTask_some_mem {db : DB} {tid : String} {t : Task}
    (h : findTask db tid = some t) : t ∈ db.tasks := by
  unfold findTask at h
  exact List.mem_of_find?_eq_some h

/-- `assertValidTransition` succeeds exactly on valid edges. -/
theorem assertValidTransition_ok_iff {s1 s2 : TaskStatus} {u : Unit} :
    assertValidTransition s1 s2 = Except.ok u ↔ isValidTransition s1 s2 = true := by
  unfold assertValidTransition
  split <;> simp_all

/-- Every cancellable status has a valid edge to CANCELLED. -/
theorem canBeCancelled_valid :
    ∀ s : TaskStatus, canBeCancelled s = true → isValidTransition s .CANCELLED = true := by
  decide

/-- `recomputeStats` never changes the task rows. -/
theorem recomputeStats_tasks {db : DB} {aid : String} {a : Agent} {db2 : DB}
    (h : recomputeStats db aid = Except.ok (a, db2)) : db2.tasks = db.tasks := by
  unfold recomputeStats at h
  split at h
  · exact absurd h (by simp)
  · rw [(by injection h with h1; injection h1 with _ h2; exact h2.symm : db2 =
      updateAgentRow db aid (recomputeStatsUpdate db aid))]
    rfl

/-- The shared completion tail rewrites the Task row to COMPLETED on
success and FAILED on failure, and touches no other task row. -/
theorem completeExecutionTail_tasks {db : DB} {task : Task} {tid aid : String}
    {e : Execution} {input : CompleteExecutionInput} {now : ℚ} {r1 r2 : String}
    {e2 : Execution} {db2 : DB}
    (h : completeExecutionTail db task tid aid e input now r1 r2 = Except.ok (e2, db2)) :
    db2.tasks = db.tasks.map (fun u => if u.id = tid then
      { u with status := if input.success then TaskStatus.COMPLETED else TaskStatus.FAILED }
      else u) := by
  unfold completeExecutionTail at h
  cases hrs : recomputeStats (completeExecutionWrites db task tid aid e input now r1 r2) aid with
  | error err => rw [hrs] at h; exact absurd h (by simp)
  | ok pair =>
    rw [hrs] at h
    have hdb2 : db2 = pair.2 := by
      cases pair
      injection h with h1
      injection h1 with _ h2
      exact h2.symm
    cases pair
    rw [hdb2, recomputeStats_tasks hrs]
    cases hs : input.success <;>
      simp [completeExecutionWrites, hs, applyEvent, recomputeAgentScoreDB,
        updateAgentRow, createPendingPayment, updateExecutionRow, updateTaskRow]

/-- When a store's tasks are those of `db` with the row `tid` rewritten
through an id-preserving `f`, a task found after the update is the found
task before the update, through `f` when its id is `tid`:  the status
change, if any, is to the status `f` writes. -/
theorem status_change_is_target {db db2 : DB} {tid : String} {s2 : TaskStatus}
    {f : Task → Task} (hf : ∀ u, (f u).id = u.id) (hstat : ∀ u, (f u).status = s2)
    (htasks : db2.tasks = db.tasks.map (fun u => if u.id = tid then f u else u))
    {taskId : String} {t t2 : Task}
    (hft : findTask db taskId = some t) (hft2 : findTask db2 taskId = some t2)
    (hneq : t.status ≠ t2.status) :
    taskId = tid ∧ t2.status = s2 ∧ findTask db tid = some t := by
  have heq : findTask db2 taskId =
      (findTask db taskId).map (fun u => if u.id = tid then f u else u) := by
    have hsame : findTask db2 taskId = findTask (updateTaskRow db tid f) taskId := by
      unfold findTask updateTaskRow
      rw [htasks]
    rw [hsame, findTask_updateTaskRow db tid taskId f hf]
  rw [heq, hft] at hft2
  simp only [Option.map_some'] at hft2
  have ht2 : t2 = if t.id = tid then f t else t := by
    injection hft2 with hx
    exact hx.symm
  by_cases hid : t.id = tid
  · have hta : taskId = tid := by rw [← findTask_some_id hft, hid]
    refine ⟨hta, by rw [ht2, if_pos hid, hstat], by rw [← hta]; exact hft⟩
  · exact absurd (by rw [ht2, if_neg hid] : t2 = t) (fun hx => hneq (by rw [hx]))

/-- A successful `startExecution` requires an ASSIGNED task and rewrites
exactly that task row to RUNNING. -/
theorem startExecution_char {db : DB} {tid aid : String} {now : ℚ}
    {e2 : Execution} {db2 : DB}
    (h : startExecution db tid aid now = Except.ok (e2, db2)) :
    ∃ task0, findTask db tid = some task0 ∧ task0.status = .ASSIGNED ∧
      db2.tasks = db.tasks.map
        (fun u => if u.id = tid then { u with status := TaskStatus.RUNNING } else u) := by
  unfold startExecution at h
  cases hft : findTask db tid with
  | none => rw [hft] at h; exact absurd h (by simp)
  | some task0 =>
    simp only [hft] at h
    by_cases h1 : task0.assignedAgentId ≠ some aid
    · rw [if_pos h1] at h; exact absurd h (by simp)
    · rw [if_neg h1] at h
      by_cases h2 : task0.status ≠ .ASSIGNED
      · rw [if_pos h2] at h; exact absurd h (by simp)
      · rw [if_neg h2] at h
        refine ⟨task0, rfl, not_not.mp h2, ?_⟩
        cases hfe : db.executions.find? (fun e =>
            e.taskId = tid ∧ e.agentId = aid ∧ e.status = .PENDING) with
        | some e0 =>
          rw [hfe] at h
          have hdb : db2 = updateTaskRow
              (updateExecutionRow db e0.id
                (fun e => { e with status := .RUNNING, startedAt := some now }))
              tid (fun t => { t with status := .RUNNING }) := by
            injection h with hp
            injection hp with _ hd
            exact hd.symm
          rw [hdb]
          rfl
        | none =>
          rw [hfe] at h
          have hdb : db2 = updateTaskRow
              (updateExecutionRow
                { db with
                  executions := db.executions ++
                    [{ id := db.nextId, taskId := tid, agentId := aid,
                       status := .PENDING, startedAt := none, completedAt := none,
                       signedResultPayload := none, resultSummary := none,
                       proofHash := none, errorMessage := none }]
                  nextId := db.nextId + 1 }
                db.nextId
                (fun e => { e with status := .RUNNING, startedAt := some now }))
              tid (fun t => { t with status := .RUNNING }) := by
            injection h with hp
            injection hp with _ hd
            exact hd.symm
          rw [hdb]
          rfl

/-- A successful primary `completeExecution` requires a matching RUNNING
execution and rewrites exactly the task row to COMPLETED or FAILED. -/
theorem completeExecution_char {db : DB} {tid aid : String}
    {input : CompleteExecutionInput} {now : ℚ} {e2 : Execution} {db2 : DB}
    (h : completeExecution db tid aid input now = Except.ok (e2, db2)) :
    ∃ task0 exec0, findTask db tid = some task0 ∧
      task0.assignedAgentId = some aid ∧
      db.executions.find? (fun e =>
        e.taskId = tid ∧ e.agentId = aid ∧ e.status = .RUNNING) = some exec0 ∧
      db2.tasks = db.tasks.map (fun u => if u.id = tid then
        { u with status := if input.success then TaskStatus.COMPLETED else TaskStatus.FAILED }
        else u) := by
  unfold completeExecution at h
  cases hft : findTask db tid with
  | none => rw [hft] at h; exact absurd h (by simp)
  | some task0 =>
    simp only [hft] at h
    by_cases h1 : task0.assignedAgentId ≠ some aid
    · rw [if_pos h1] at h; exact absurd h (by simp)
    · rw [if_neg h1] at h
      cases hfe : db.executions.find? (fun e =>
          e.taskId = tid ∧ e.agentId = aid ∧ e.status = .RUNNING) with
      | none => rw [hfe] at h; exact absurd h (by simp)
      | some exec0 =>
        simp only [hfe] at h
        exact ⟨task0, exec0, rfl, not_not.mp h1, rfl,
          completeExecutionTail_tasks h⟩

/-- A successful guarded `completeExecution` additionally requires the
Task itself to be RUNNING. -/
theorem completeExecutionGuarded_char {db : DB} {tid aid : String}
    {input : CompleteExecutionInput} {now : ℚ} {e2 : Execution} {db2 : DB}
    (h : completeExecutionGuarded db tid aid input now = Except.ok (e2, db2)) :
    ∃ task0, findTask db tid = some task0 ∧ task0.status = .RUNNING ∧
      db2.tasks = db.tasks.map (fun u => if u.id = tid then
        { u with status := if input.success then TaskStatus.COMPLETED else TaskStatus.FAILED }
        else u) := by
  unfold completeExecutionGuarded at h
  cases hft : findTask db tid with
  | none => rw [hft] at h; exact absurd h (by simp)
  | some task0 =>
    simp only [hft] at h
    by_cases h1 : task0.assignedAgentId ≠ some aid
    · rw [if_pos h1] at h; exact absurd h (by simp)
    · rw [if_neg h1] at h
      by_cases h2 : canComplete task0.status = true
      · rw [if_neg (not_not_intro h2)] at h
        have hrun : task0.status = .RUNNING := by
          unfold canComplete at h2
          simpa using h2
        cases hfe : db.executions.find? (fun e =>
            e.taskId = tid ∧ e.agentId = aid ∧ e.status = .RUNNING) with
        | none => rw [hfe] at h; exact absurd h (by simp)
        | some exec0 =>
          simp only [hfe] at h
          exact ⟨task0, rfl, hrun, completeExecutionTail_tasks h⟩
      · rw [if_pos h2] at h
        exact absurd h (by simp)

/-- C3 amended: every status change performed by the guard-checked core
operations — the guarded `updateTaskStatus` and `assignTask` revisions,
both `cancelTask` revisions, `startExecution`, and `completeExecution`
(the primary revision under the reachable-state invariant that a RUNNING
Execution's Task is RUNNING, the guarded revision unconditionally) — is
an edge of the StatusGuard table.  The primary `updateTaskStatus` and
`assignTask` are NOT so constrained (see the counterexample). -/
theorem coreOps_respect_statusGuard :
    ∀ (db : DB) (op : CoreOp) (db2 : DB),
      (∀ e ∈ db.executions, e.status = ExecutionStatus.RUNNING →
        ∀ t ∈ db.tasks, t.id = e.taskId → t.status = TaskStatus.RUNNING) →
      runOp db op = Except.ok db2 →
      ∀ (taskId : String) (t t2 : Task),
        findTask db taskId = some t → findTask db2 taskId = some t2 →
        t.status ≠ t2.status → isValidTransition t.status t2.status = true := by
  intro db op db2 hInv hok taskId t t2 hft hft2 hneq
  cases op with
  | opUpdateGuarded tid s =>
    simp only [runOp] at hok
    cases hu : updateTaskStatusGuarded db tid s with
    | error e => rw [hu] at hok; exact absurd hok (by simp [Except.map])
    | ok pair =>
      rw [hu] at hok
      have hdb2 : pair.2 = db2 := by
        simpa [Except.map] using hok
      unfold updateTaskStatusGuarded at hu
      cases hftid : findTask db tid with
      | none => rw [hftid] at hu; exact absurd hu (by simp)
      | some task0 =>
        simp only [hftid] at hu
        cases hav : assertValidTransition task0.status s with
        | error e => rw [hav] at hu; exact absurd hu (by simp)
        | ok u =>
          simp only [hav] at hu
          have htasks : db2.tasks = db.tasks.map
              (fun x => if x.id = tid then { x with status := s } else x) := by
            rw [← hdb2]
            have : pair = ({ task0 with status := s },
                updateTaskRow db tid (fun x => { x with status := s })) := by
              injection hu with hp
              exact hp.symm
            rw [this]
            rfl
          obtain ⟨hta, ht2s, hftt⟩ := @status_change_is_target _ _ _ _
            (fun x => { x with status := s }) (fun x => rfl) (fun x => rfl)
            htasks _ _ _ hft hft2 hneq
          have ht0 : t = task0 := by
            rw [hftt] at hftid
            injection hftid
          rw [ht2s, ht0]
          exact assertValidTransition_ok_iff.mp hav
  | opAssignGuarded tid aid =>
    simp only [runOp] at hok
    cases hu : assignTaskGuarded db tid aid with
    | error e => rw [hu] at hok; exact absurd hok (by simp [Except.map])
    | ok pair =>
      rw [hu] at hok
      have hdb2 : pair.2 = db2 := by
        simpa [Except.map] using hok
      unfold assignTaskGuarded at hu
      cases hftid : findTask db tid with
      | none => rw [hftid] at hu; exact absurd hu (by simp)
      | some task0 =>
        simp only [hftid] at hu
        cases hav : assertValidTransition task0.status .ASSIGNED with
        | error e => rw [hav] at hu; exact absurd hu (by simp)
        | ok u =>
          simp only [hav] at hu
          have htasks : db2.tasks = db.tasks.map (fun x => if x.id = tid then
              { x with assignedAgentId := some aid, status := .ASSIGNED } else x) := by
            rw [← hdb2]
            have : pair = ({ task0 with assignedAgentId := some aid, status := .ASSIGNED },
                updateTaskRow db tid
                  (fun x => { x with assignedAgentId := some aid, status := .ASSIGNED })) := by
              injection hu with hp
              exact hp.symm
            rw [this]
            rfl
          obtain ⟨hta, ht2s, hftt⟩ := @status_change_is_target _ _ _ _
            (fun x => { x with assignedAgentId := some aid, status := .ASSIGNED })
            (fun x => rfl) (fun x => rfl) htasks _ _ _ hft hft2 hneq
          have ht0 : t = task0 := by
            rw [hftt] at hftid
            injection hftid
          rw [ht2s, ht0]
          exact assertValidTransition_ok_iff.mp hav
  | opCancel tid uid =>
    simp only [runOp] at hok
    cases hu : cancelTask db tid uid with
    | error e => rw [hu] at hok; exact absurd hok (by simp [Except.map])
    | ok pair =>
      rw [hu] at hok
      have hdb2 : pair.2 = db2 := by
        simpa [Except.map] using hok
      unfold cancelTask at hu
      cases hftid : findTask db tid with
      | none => rw [hftid] at hu; exact absurd hu (by simp)
      | some task0 =>
        simp only [hftid] at hu
        by_cases h1 : task0.createdByUserId ≠ uid
        · rw [if_pos h1] at hu; exact absurd hu (by simp)
        · rw [if_neg h1] at hu
          by_cases h2 : ([TaskStatus.OPEN, .IN_AUCTION, .ASSIGNED].contains task0.status)
              = true
          · rw [if_neg (not_not_intro h2)] at hu
            have htasks : db2.tasks = db.tasks.map
                (fun x => if x.id = tid then { x with status := .CANCELLED } else x) := by
              rw [← hdb2]
              have : pair = ({ task0 with status := .CANCELLED },
                  updateTaskRow db tid (fun x => { x with status := .CANCELLED })) := by
                injection hu with hp
                exact hp.symm
              rw [this]
              rfl
            obtain ⟨hta, ht2s, hftt⟩ := @status_change_is_target _ _ _ _
              (fun x => { x with status := .CANCELLED }) (fun x => rfl) (fun x => rfl)
              htasks _ _ _ hft hft2 hneq
            have ht0 : t = task0 := by
              rw [hftt] at hftid
              injection hftid
            rw [ht2s, ht0]
            exact canBeCancelled_valid task0.status h2
          · rw [if_pos (by simpa using h2)] at hu
            exact absurd hu (by simp)
  | opCancelGuarded tid uid =>
    simp only [runOp] at hok
    cases hu : cancelTaskGuarded db tid uid with
    | error e => rw [hu] at hok; exact absurd hok (by simp [Except.map])
    | ok pair =>
      rw [hu] at hok
      have hdb2 : pair.2 = db2 := by
        simpa [Except.map] using hok
      unfold cancelTaskGuarded at hu
      cases hftid : findTask db tid with
      | none => rw [hftid] at hu; exact absurd hu (by simp)
      | some task0 =>
        simp only [hftid] at hu
        by_cases h1 : task0.createdByUserId ≠ uid
        · rw [if_pos h1] at hu; exact absurd hu (by simp)
        · rw [if_neg h1] at hu
          by_cases h2 : canBeCancelled task0.status = true
          · rw [if_neg (not_not_intro h2)] at hu
            have htasks : db2.tasks = db.tasks.map
                (fun x => if x.id = tid then { x with status := .CANCELLED } else x) := by
              rw [← hdb2]
              have : pair = ({ task0 with status := .CANCELLED },
                  updateTaskRow db tid (fun x => { x with status := .CANCELLED })) := by
                injection hu with hp
                exact hp.symm
              rw [this]
              rfl
            obtain ⟨hta, ht2s, hftt⟩ := @status_change_is_target _ _ _ _
              (fun x => { x with status := .CANCELLED }) (fun x => rfl) (fun x => rfl)
              htasks _ _ _ hft hft2 hneq
            have ht0 : t = task0 := by
              rw [hftt] at hftid
              injection hftid
            rw [ht2s, ht0]
            exact canBeCancelled_valid task0.status h2
          · rw [if_pos (by simpa using h2)] at hu
            exact absurd hu (by simp)
  | opStart tid aid now =>
    simp only [runOp] at hok
    cases hu : startExecution db tid aid now with
    | error e => rw [hu] at hok; exact absurd hok (by simp [Except.map])
    | ok pair =>
      obtain ⟨pe, pdb⟩ := pair
      rw [hu] at hok
      have hdb2 : pdb = db2 := by
        simpa [Except.map] using hok
      obtain ⟨task0, hftid, hassigned, htasks⟩ := startExecution_char hu
      rw [hdb2] at htasks
      obtain ⟨hta, ht2s, hftt⟩ := @status_change_is_target _ _ _ _
        (fun x => { x with status := .RUNNING }) (fun x => rfl) (fun x => rfl)
        htasks _ _ _ hft hft2 hneq
      have ht0 : t = task0 := by
        rw [hftt] at hftid
        injection hftid
      rw [ht2s, ht0, hassigned]
      decide
  | opComplete tid aid input now =>
    simp only [runOp] at hok
    cases hu : completeExecution db tid aid input now with
    | error e => rw [hu] at hok; exact absurd hok (by simp [Except.map])
    | ok pair =>
      obtain ⟨pe, pdb⟩ := pair
      rw [hu] at hok
      have hdb2 : pdb = db2 := by
        simpa [Except.map] using hok
      obtain ⟨task0, exec0, hftid, hassigned, hfexec, htasks⟩ :=
        completeExecution_char hu
      rw [hdb2] at htasks
      obtain ⟨hta, ht2s, hftt⟩ := @status_change_is_target _ _ _ _
        (fun u =>
          { u with status := if input.success then TaskStatus.COMPLETED else .FAILED })
        (fun x => rfl) (fun x => rfl) htasks _ _ _ hft hft2 hneq
      have ht0 : t = task0 := by
        rw [hftt] at hftid
        injection hftid
      have hexec_props := List.find?_some hfexec
      simp only [decide_eq_true_eq] at hexec_props
      have hrun : t.status = .RUNNING := by
        refine hInv exec0 (List.mem_of_find?_eq_some hfexec) hexec_props.2.2 t
          (findTask_some_mem hft) ?_
        rw [findTask_some_id hft, hta, hexec_props.1]
      rw [ht2s, hrun]
      cases input.success <;> decide
  | opCompleteGuarded tid aid input now =>
    simp only [runOp] at hok
    cases hu : completeExecutionGuarded db tid aid input now with
    | error e => rw [hu] at hok; exact absurd hok (by simp [Except.map])
    | ok pair =>
      obtain ⟨pe, pdb⟩ := pair
      rw [hu] at hok
      have hdb2 : pdb = db2 := by
        simpa [Except.map] using hok
      obtain ⟨task0, hftid, hrun0, htasks⟩ :=
        completeExecutionGuarded_char hu
      rw [hdb2] at htasks
      obtain ⟨hta, ht2s, hftt⟩ := @status_change_is_target _ _ _ _
        (fun u =>
          { u with status := if input.success then TaskStatus.COMPLETED else .FAILED })
        (fun x => rfl) (fun x => rfl) htasks _ _ _ hft hft2 hneq
      have ht0 : t = task0 := by
        rw [hftt] at hftid
        injection hftid
      rw [ht2s, ht0, hrun0]
      cases input.success <;> decide

/-- The store after the witnessed guarded status update. -/
def dbStatusAfter : DB :=
  { tasks := [{ taskAuction with id := "task-2", status := .IN_AUCTION }, taskCompleted],
    agents := [agentActive], offers := [], executions := [], reputationEvents := [],
    payments := [], nextId := 0 }

/-- Witness for the amended C3: a concrete guarded update OPEN→IN_AUCTION
goes through and is a table edge. -/
theorem coreOps_respect_statusGuard_witness :
    runOp dbStatus (CoreOp.opUpdateGuarded "task-2" .IN_AUCTION) = Except.ok dbStatusAfter ∧
    findTask dbStatus "task-2" = some taskOpen ∧
    findTask dbStatusAfter "task-2" =
      some { taskAuction with id := "task-2", status := .IN_AUCTION } ∧
    taskOpen.status ≠ TaskStatus.IN_AUCTION ∧
    isValidTransition taskOpen.status TaskStatus.IN_AUCTION = true :=
  ⟨rfl, rfl, rfl, by decide,
    coreOps_respect_statusGuard dbStatus (CoreOp.opUpdateGuarded "task-2" .IN_AUCTION)
      dbStatusAfter (fun e he => nomatch he) rfl "task-2" taskOpen
      { taskAuction with id := "task-2", status := .IN_AUCTION } rfl rfl (by decide)⟩

/-- A RUNNING task assigned to agent-1. -/
def taskRunning : Task :=
  { taskAuction with
    id := "task-run"
    status := .RUNNING
    assignedAgentId := some "agent-1" }

/-- The RUNNING execution behind it. -/
def execRunning : Execution :=
  { id := 5, taskId := "task-run", agentId := "agent-1", status := .RUNNING,
    startedAt := some 0, completedAt := none, signedResultPayload := none,
    resultSummary := none, proofHash := none, errorMessage := none }

/-- Store with the running task and execution. -/
def dbRun : DB :=
  { tasks := [taskRunning], agents := [agentActive], offers := [],
    executions := [execRunning], reputationEvents := [], payments := [], nextId := 6 }

/-- A successful completion payload. -/
def inputOk : CompleteExecutionInput :=
  { success := true, resultSummary := some "done" }

/-- C9 counterexample: after a first successful `completeExecution`, a
second call for the same Task and agent fails with NotFoundError (no
RUNNING Execution remains), not with the ConflictError the claim
states. -/
theorem completeExecution_second_call_not_conflict :
    (completeExecution dbRun "task-run" "agent-1" inputOk 1000).isOk = true ∧
    (completeExecution dbRun "task-run" "agent-1" inputOk 1000).bind
        (fun p => completeExecution p.2 "task-run" "agent-1" inputOk 2000) =
      Except.error (RunicError.notFound "Running Execution") ∧
    (RunicError.notFound "Running Execution").isConflict = false := by
  refine ⟨by rfl, by rfl, by rfl⟩

/-- C9 amended: re-invoking completion against an already-terminal state
surfaces an error without applying any effect (every error is raised
before the first write, so an error result carries no state change): the
primary revision raises NotFoundError since no RUNNING Execution remains;
the guarded revision raises ConflictError via `canComplete`. -/
theorem completeExecution_second_call :
    ∀ (db : DB) (taskId agentId : String) (input : CompleteExecutionInput) (now : ℚ)
      (task : Task),
      findTask db taskId = some task →
      task.assignedAgentId = some agentId →
      ((∀ e ∈ db.executions,
          ¬ (e.taskId = taskId ∧ e.agentId = agentId ∧ e.status = ExecutionStatus.RUNNING)) →
        completeExecution db taskId agentId input now =
          Except.error (.notFound "Running Execution")) ∧
      ((task.status = .COMPLETED ∨ task.status = .FAILED) →
        completeExecutionGuarded db taskId agentId input now =
          Except.error (.conflict (cannotCompleteMessage task.status))) := by
  intro db taskId agentId input now task htask hassigned
  constructor
  · intro hnone
    have hfo : db.executions.find? (fun e => decide (e.taskId = taskId) &&
        (decide (e.agentId = agentId) && decide (e.status = ExecutionStatus.RUNNING)))
        = none := by
      rw [List.find?_eq_none]
      intro x hx
      simpa using hnone x hx
    simp [completeExecution, htask, hassigned, hfo]
  · intro hterm
    rcases hterm with h | h <;>
      simp [completeExecutionGuarded, htask, hassigned, canComplete, h]

/-- The task of `dbRun` once COMPLETED. -/
def taskDone : Task :=
  { taskAuction with
    id := "task-run"
    status := .COMPLETED
    assignedAgentId := some "agent-1" }

/-- The execution of `dbRun` once SUCCESS. -/
def execDone : Execution :=
  { execRunning with status := .SUCCESS, completedAt := some 1000 }

/-- Store in the post-completion state. -/
def dbDone : DB :=
  { dbRun with tasks := [taskDone], executions := [execDone] }

/-- Witness for the amended C9 on the post-completion store. -/
theorem completeExecution_second_call_witness :
    completeExecution dbDone "task-run" "agent-1" inputOk 2000 =
      Except.error (RunicError.notFound "Running Execution") ∧
    completeExecutionGuarded dbDone "task-run" "agent-1" inputOk 2000 =
      Except.error (RunicError.conflict (cannotCompleteMessage .COMPLETED)) :=
  ⟨(completeExecution_second_call dbDone "task-run" "agent-1" inputOk 2000 taskDone
      (by rfl) (by rfl)).1 (by decide),
    (completeExecution_second_call dbDone "task-run" "agent-1" inputOk 2000 taskDone
      (by rfl) (by rfl)).2 (Or.inl (by rfl))⟩

/-- `recomputeStats` persists, as the agent's reputation score, the base
score plus the UNWEIGHTED sum of the most recent at-most-100 event deltas
clamped to [0, 5]; it leaves the event list untouched. -/
theorem recomputeStats_reputation {db : DB} {aid : String} {a : Agent} {db2 : DB}
    (h : recomputeStats db aid = Except.ok (a, db2)) :
    ∃ agent, findAgent db2 aid = some agent ∧
      agent.reputationScore = max 0 (min 5 (BASE_SCORE +
        (((db.reputationEvents.filter (fun ev => ev.agentId = aid)).take 100).map
          (fun ev => ev.deltaScore)).sum)) ∧
      db2.reputationEvents = db.reputationEvents := by
  unfold recomputeStats at h
  cases hfa : findAgent db aid with
  | none => rw [hfa] at h; exact absurd h (by simp)
  | some a0 =>
    simp only [hfa] at h
    injection h with hp
    rw [Prod.mk.injEq] at hp
    obtain ⟨ha, hdb⟩ := hp
    subst hdb
    have ha0 : a0.id = aid := by
      unfold findAgent at hfa
      have h2 := List.find?_some hfa
      simpa using h2
    rw [findAgent_updateAgentRow db aid aid (recomputeStatsUpdate db aid) (fun x => rfl),
      hfa, Option.map_some', if_pos ha0]
    exact ⟨_, rfl, rfl, rfl⟩

/-- A successful primary `completeExecution` ends with a `recomputeStats`
call whose output store is the returned store. -/
theorem completeExecution_stats {db : DB} {tid aid : String}
    {input : CompleteExecutionInput} {now : ℚ} {e2 : Execution} {db2 : DB}
    (h : completeExecution db tid aid input now = Except.ok (e2, db2)) :
    ∃ dbW a, recomputeStats dbW aid = Except.ok (a, db2) := by
  unfold completeExecution at h
  cases hft : findTask db tid with
  | none => rw [hft] at h; exact absurd h (by simp)
  | some task0 =>
    simp only [hft] at h
    by_cases h1 : task0.assignedAgentId ≠ some aid
    · rw [if_pos h1] at h; exact absurd h (by simp)
    · rw [if_neg h1] at h
      cases hfe : db.executions.find? (fun e =>
          e.taskId = tid ∧ e.agentId = aid ∧ e.status = .RUNNING) with
      | none => rw [hfe] at h; exact absurd h (by simp)
      | some exec0 =>
        simp only [hfe] at h
        unfold completeExecutionTail at h
        cases hrs : recomputeStats (completeExecutionWrites db task0 tid aid exec0 input now
            "Successfully completed Task execution"
            ("Task execution failed: " ++ input.errorMessage.getD "Unknown error")) aid with
        | error err => rw [hrs] at h; exact absurd h (by simp)
        | ok pair =>
          rw [hrs] at h
          have hdb : db2 = pair.2 := by
            cases pair
            injection h with hp
            injection hp with _ hd
            exact hd.symm
          refine ⟨completeExecutionWrites db task0 tid aid exec0 input now
              "Successfully completed Task execution"
              ("Task execution failed: " ++ input.errorMessage.getD "Unknown error"),
            pair.1, ?_⟩
          rw [hdb]
          exact hrs

/-- C10: whenever the primary `completeExecution` returns, the agent's
persisted reputation score equals the base 3.0 plus the UNWEIGHTED sum of
the agent's most recent at-most-100 reputation-event deltas, clamped to
[0, 5] — `recomputeStats` runs last and overwrites the decay-weighted
score that `ReputationService` persisted moments earlier, because it
rewrites `reputationScore` and not only the counters. -/
theorem completeExecution_final_reputation :
    ∀ (db : DB) (taskId agentId : String) (input : CompleteExecutionInput) (now : ℚ),
      (completeExecution db taskId agentId input now).isOk = true →
      ∃ e2 db2, completeExecution db taskId agentId input now = Except.ok (e2, db2) ∧
        ∃ agent, findAgent db2 agentId = some agent ∧
          agent.reputationScore = max 0 (min 5 (BASE_SCORE +
            (((db2.reputationEvents.filter (fun ev => ev.agentId = agentId)).take 100).map
              (fun ev => ev.deltaScore)).sum)) := by
  intro db taskId agentId input now hok
  cases hres : completeExecution db taskId agentId input now with
  | error e => rw [hres] at hok; exact absurd hok (by simp [Except.isOk, Except.toBool])
  | ok pair =>
    obtain ⟨e2, db2⟩ := pair
    refine ⟨e2, db2, rfl, ?_⟩
    obtain ⟨dbW, a, hrs⟩ := completeExecution_stats hres
    obtain ⟨agent, hfind, hscore, hevents⟩ := recomputeStats_reputation hrs
    exact ⟨agent, hfind, by rw [hscore, hevents]⟩

/-- Witness for C10: the concrete completion run on `dbRun`; afterwards
the agent's score is clamp(3 + 0.1) = 3.1 computed by the unweighted
formula over the single event written by the run. -/
theorem completeExecution_final_reputation_witness :
    (completeExecution dbRun "task-run" "agent-1" inputOk 1000).isOk = true ∧
    (∃ e2 db2, completeExecution dbRun "task-run" "agent-1" inputOk 1000 =
        Except.ok (e2, db2) ∧
      ∃ agent, findAgent db2 "agent-1" = some agent ∧
        agent.reputationScore = max 0 (min 5 (BASE_SCORE +
          (((db2.reputationEvents.filter (fun ev => ev.agentId = "agent-1")).take 100).map
            (fun ev => ev.deltaScore)).sum))) :=
  ⟨by rfl,
    completeExecution_final_reputation dbRun "task-run" "agent-1" inputOk 1000 (by rfl)⟩

/-- The sort order used by `getPendingOffersForTask` is transitive. -/
theorem offerLe_trans : ∀ a b c : Offer,
    (fun a b : Offer => decide (b.score ≤ a.score)) a b = true →
    (fun a b : Offer => decide (b.score ≤ a.score)) b c = true →
    (fun a b : Offer => decide (b.score ≤ a.score)) a c = true := by
  intro a b c hab hbc
  simp only [decide_eq_true_eq] at hab hbc ⊢
  exact le_trans hbc hab

/-- The sort order used by `getPendingOffersForTask` is total. -/
theorem offerLe_total : ∀ a b : Offer,
    ((fun a b : Offer => decide (b.score ≤ a.score)) a b ||
     (fun a b : Offer => decide (b.score ≤ a.score)) b a) = true := by
  intro a b
  simpa using le_total b.score a.score

/-- C1: closing the auction of an IN_AUCTION Task with no PENDING offer
resets it to OPEN and creates no Execution row; with at least one PENDING
offer it marks a maximal-score PENDING offer ACCEPTED, marks every other
PENDING offer of the Task REJECTED (offers of other Tasks and non-PENDING
offers untouched), moves the Task to ASSIGNED with `assignedAgentId` the
winner's agent, and appends exactly one PENDING Execution row for the
Task and the winning agent. -/
theorem closeAuction_spec (db : DB) (taskId : String) (t : Task)
    (ht : findTask db taskId = some t) (hst : t.status = .IN_AUCTION) :
    (pendingOffersForTask db taskId = [] →
      findTask (closeAuction db taskId) taskId = some { t with status := .OPEN } ∧
      (closeAuction db taskId).executions = db.executions ∧
      (closeAuction db taskId).offers = db.offers) ∧
    (pendingOffersForTask db taskId ≠ [] →
      ∃ w, w ∈ db.offers ∧ w.taskId = taskId ∧ w.status = .PENDING ∧
        (∀ o ∈ db.offers, o.taskId = taskId → o.status = .PENDING →
          o.score ≤ w.score) ∧
        (closeAuction db taskId).offers = db.offers.map (fun o =>
          if o.id = w.id then { o with status := .ACCEPTED }
          else if o.taskId = taskId ∧ o.status = .PENDING then
            { o with status := .REJECTED }
          else o) ∧
        findTask (closeAuction db taskId) taskId =
          some { t with assignedAgentId := some w.agentId, status := .ASSIGNED } ∧
        (closeAuction db taskId).executions = db.executions ++
          [{ id := db.nextId, taskId := taskId, agentId := w.agentId,
             status := .PENDING, startedAt := none, completedAt := none,
             signedResultPayload := none, resultSummary := none, proofHash := none,
             errorMessage := none }]) := by
  have hperm : (getPendingOffersForTask db taskId).Perm (pendingOffersForTask db taskId) :=
    List.mergeSort_perm _ _
  constructor
  · intro hempty
    have hsorted : getPendingOffersForTask db taskId = [] := by
      rw [hempty] at hperm
      exact hperm.eq_nil
    have hclose : closeAuction db taskId =
        updateTaskRow db taskId (fun u => { u with status := .OPEN }) := by
      unfold closeAuction closeAuctionTry
      rw [hsorted]
      unfold updateTaskStatus
      rw [ht]
    rw [hclose]
    refine ⟨?_, rfl, rfl⟩
    rw [findTask_updateTaskRow db taskId taskId (fun u => { u with status := .OPEN })
      (fun u => rfl), ht, Option.map_some', if_pos (findTask_some_id ht)]
  · intro hne
    have hsne : getPendingOffersForTask db taskId ≠ [] := by
      intro hs
      rw [hs] at hperm
      exact hne hperm.symm.eq_nil
    cases hsorted : getPendingOffersForTask db taskId with
    | nil => exact absurd hsorted hsne
    | cons w rest =>
      have hwmem : w ∈ pendingOffersForTask db taskId := by
        rw [hsorted] at hperm
        exact hperm.mem_iff.mp (List.mem_cons_self w rest)
      have hwprops := List.mem_filter.mp hwmem
      have hwdb : w ∈ db.offers := hwprops.1
      have hwtask : w.taskId = taskId := by
        have := hwprops.2
        simp only [decide_eq_true_eq] at this
        exact this.1
      have hwpending : w.status = .PENDING := by
        have := hwprops.2
        simp only [decide_eq_true_eq] at this
        exact this.2
      have hsortedPairwise := @List.sorted_mergeSort Offer
        (fun a b : Offer => decide (b.score ≤ a.score))
        offerLe_trans offerLe_total (pendingOffersForTask db taskId)
      rw [show (pendingOffersForTask db taskId).mergeSort
          (fun a b : Offer => decide (b.score ≤ a.score)) =
          getPendingOffersForTask db taskId from rfl, hsorted] at hsortedPairwise
      have hmax : ∀ o ∈ db.offers, o.taskId = taskId → o.status = .PENDING →
          o.score ≤ w.score := by
        intro o ho hot hop
        have homem : o ∈ pendingOffersForTask db taskId := by
          rw [pendingOffersForTask]
          exact List.mem_filter.mpr ⟨ho, by simp [hot, hop]⟩
        rw [← hperm.mem_iff, hsorted] at homem
        rcases List.mem_cons.mp homem with how | horest
        · rw [how]
        · have := List.rel_of_pairwise_cons hsortedPairwise horest
          simpa using this
      -- run the close transaction
      have hfindw : ∃ o1, db.offers.find? (fun o => decide (o.id = w.id)) = some o1 := by
        rw [← Option.isSome_iff_exists, List.find?_isSome]
        exact ⟨w, hwdb, by simp⟩
      obtain ⟨o1, ho1⟩ := hfindw
      have hclose : closeAuction db taskId =
          { updateTaskRow (rejectOffersExcept
              (updateOfferRow db w.id (fun u => { u with status := .ACCEPTED }))
              taskId w.id) taskId
              (fun u => { u with assignedAgentId := some w.agentId, status := .ASSIGNED })
            with
            executions := db.executions ++
              [{ id := db.nextId, taskId := taskId, agentId := w.agentId,
                 status := .PENDING, startedAt := none, completedAt := none,
                 signedResultPayload := none, resultSummary := none, proofHash := none,
                 errorMessage := none }]
            nextId := db.nextId + 1 } := by
        unfold closeAuction closeAuctionTry
        simp only [hsorted]
        unfold updateOfferStatus
        simp only [ho1]
        unfold assignTask
        have hft2 : findTask (rejectOffersExcept
            (updateOfferRow db w.id (fun u => { u with status := OfferStatus.ACCEPTED }))
            taskId w.id) taskId = some t := ht
        simp only [hft2]
        rw [if_neg (by rw [hst]; simp)]
        rfl
      refine ⟨w, hwdb, hwtask, hwpending, hmax, ?_, ?_, ?_⟩
      · rw [hclose]
        show ((rejectOffersExcept
            (updateOfferRow db w.id (fun u => { u with status := .ACCEPTED }))
            taskId w.id)).offers = _
        unfold rejectOffersExcept updateOfferRow
        show (db.offers.map _).map _ = _
        rw [List.map_map]
        refine List.map_congr_left ?_
        intro o _
        by_cases hid : o.id = w.id
        · simp only [Function.comp, hid, if_pos rfl]
          simp
        · simp only [Function.comp, if_neg hid]
          by_cases hcond : o.taskId = taskId ∧ o.status = OfferStatus.PENDING
          · rw [if_pos ⟨hcond.1, hcond.2, hid⟩, if_pos hcond]
          · rw [if_neg (fun hx => hcond ⟨hx.1, hx.2.1⟩), if_neg hcond]
      · rw [hclose]
        show findTask (updateTaskRow _ taskId _) taskId = _
        rw [findTask_updateTaskRow _ taskId taskId
          (fun u => { u with assignedAgentId := some w.agentId, status := .ASSIGNED })
          (fun u => rfl)]
        have hft2 : findTask (rejectOffersExcept
            (updateOfferRow db w.id (fun u => { u with status := OfferStatus.ACCEPTED }))
            taskId w.id) taskId = some t := ht
        rw [hft2, Option.map_some', if_pos (findTask_some_id ht)]
      · rw [hclose]

/-- Offer scoring 10.0 on task-1. -/
def offerA : Offer :=
  { id := 1, taskId := "task-1", agentId := "agent-1", priceLamports := 100,
    etaSeconds := 60, score := 10, status := .PENDING }

/-- Offer scoring 12.5 on task-1. -/
def offerB : Offer :=
  { id := 2, taskId := "task-1", agentId := "agent-2", priceLamports := 90,
    etaSeconds := 30, score := 25 / 2, status := .PENDING }

/-- Offer scoring 9.0 on task-1. -/
def offerC : Offer :=
  { id := 3, taskId := "task-1", agentId := "agent-3", priceLamports := 120,
    etaSeconds := 90, score := 9, status := .PENDING }

/-- Store with the three pending offers on the in-auction task. -/
def dbAuction : DB :=
  { tasks := [taskAuction], agents := [agentActive], offers := [offerA, offerB, offerC],
    executions := [], reputationEvents := [], payments := [], nextId := 10 }

/-- The same store with no offers at all. -/
def dbAuctionEmpty : DB :=
  { dbAuction with offers := [] }

/-- Witness for C1: both close outcomes at concrete stores — the empty
auction resets the task to OPEN with no Execution created, and the
three-offer auction is resolved as the theorem describes. -/
theorem closeAuction_spec_witness :
    pendingOffersForTask dbAuctionEmpty "task-1" = [] ∧
    findTask (closeAuction dbAuctionEmpty "task-1") "task-1" =
      some { taskAuction with status := .OPEN } ∧
    pendingOffersForTask dbAuction "task-1" ≠ [] ∧
    (∃ w, w ∈ dbAuction.offers ∧ w.taskId = "task-1" ∧ w.status = .PENDING ∧
      (∀ o ∈ dbAuction.offers, o.taskId = "task-1" → o.status = .PENDING →
        o.score ≤ w.score) ∧
      (closeAuction dbAuction "task-1").offers = dbAuction.offers.map (fun o =>
        if o.id = w.id then { o with status := .ACCEPTED }
        else if o.taskId = "task-1" ∧ o.status = .PENDING then
          { o with status := .REJECTED }
        else o) ∧
      findTask (closeAuction dbAuction "task-1") "task-1" =
        some { taskAuction with assignedAgentId := some w.agentId, status := .ASSIGNED } ∧
      (closeAuction dbAuction "task-1").executions = dbAuction.executions ++
        [{ id := dbAuction.nextId, taskId := "task-1", agentId := w.agentId,
           status := .PENDING, startedAt := none, completedAt := none,
           signedResultPayload := none, resultSummary := none, proofHash := none,
           errorMessage := none }]) :=
  ⟨rfl,
    ((closeAuction_spec dbAuctionEmpty "task-1" taskAuction rfl rfl).1 rfl).1,
    by decide,
    (closeAuction_spec dbAuction "task-1" taskAuction rfl rfl).2 (by decide)⟩

end Runic
